import Mathlib

/-!
SCIT Management System: scheduling and enrollment consistency.

A shallow embedding of the relational store behind `src/main.cpp` and of the
`Database`, `Student` and `Admin` operations that decide the scheduling and
enrollment rules.

Modelling conventions.

* A table is the list of its rows. `INSERT` appends a row, `DELETE ... WHERE`
  filters rows out, `SELECT ... WHERE` filters rows in, `COUNT(*)` is the
  length of the selection, and `fetchOne()` on a result is the head of the
  selection (`none` when the selection is empty).
* A `JOIN` is the nested loop over the joined tables in the order of the
  `FROM` clause.
* C++ `int` columns and inputs are `Int`, `std::string` is `String`; no
  operation modelled here does arithmetic that can overflow. A comparison of
  two column values in SQL is equality of the values.
* The table declarations are not part of the source. A statement is modelled
  as it is written in the source: it never fails at the store, and no key or
  foreign-key constraint acts on it. Where a property rests on a key of the
  data model (spec section 3), the key is an explicit hypothesis.
* Text read from `std::cin` is an explicit argument of the operation.
* Console output is replaced by an outcome value naming the message printed;
  a read whose result is only printed is left out.
* A loop that reads from `std::cin` runs over the list of numbers still to be
  read and ends when the list is used up.
* An operation is a function on the store, one client at a time. Where clients
  run at once, a call is split where the source splits it, into the statements
  it sends to the store, and clients take turns statement by statement.
-/

namespace SCIT

/-! ## Tables -/

/-- Row of `students`. -/
structure StudentRow where
  student_id : String
  first_name : String
  last_name : String
  email : String
  degree : String
  semester : Int
  password : String
  deriving DecidableEq, Repr

/-- Row of `faculty`. -/
structure FacultyRow where
  faculty_id : Int
  first_name : String
  last_name : String
  email : String
  degree : String
  qualification : String
  expertise_sub : String
  designation : String
  password : String
  deriving DecidableEq, Repr

/-- Row of `courses`. -/
structure CourseRow where
  course_code : String
  course_name : String
  credits : Int
  semester : Int
  department : String
  max_students : Int
  prerequisites : String
  deriving DecidableEq, Repr

/-- Row of `classrooms`. -/
structure ClassroomRow where
  room_id : String
  building : String
  room_number : String
  capacity : Int
  room_type : String
  deriving DecidableEq, Repr

/-- Row of `timeslots`. -/
structure TimeslotRow where
  timeslot_id : Int
  day_of_week : String
  start_time : String
  end_time : String
  deriving DecidableEq, Repr

/-- Row of `course_schedule`: one scheduled session. -/
structure ScheduleRow where
  schedule_id : Int
  course_code : String
  faculty_id : Int
  timeslot_id : Int
  room_id : String
  deriving DecidableEq, Repr

/-- Row of `enrollments`. -/
structure EnrollmentRow where
  student_id : String
  schedule_id : Int
  deriving DecidableEq, Repr

/-- Row of `marks`. -/
structure MarkRow where
  course_code : String
  student_id : String
  assignment_name : String
  total_marks : Int
  obtained_marks : Int
  deriving DecidableEq, Repr

/-- The store: the eight tables the program reads and writes. -/
structure Store where
  students : List StudentRow
  faculty : List FacultyRow
  courses : List CourseRow
  classrooms : List ClassroomRow
  timeslots : List TimeslotRow
  course_schedule : List ScheduleRow
  enrollments : List EnrollmentRow
  marks : List MarkRow
  deriving DecidableEq, Repr

/-! ## Database operations -/

namespace Database

/-- The `SELECT COUNT(*) FROM enrollments WHERE schedule_id = ?` of
`addEnrollment`. -/
def enrolledCount (st : Store) (schedule_id : Int) : Int :=
  ((st.enrollments.filter (fun e => e.schedule_id == schedule_id)).length : Int)

/-- `Database::addEnrollment` (main.cpp 217-248): resolve the session's course
code, the course's `max_students` and the session's enrollment count, return
false when a lookup yields no row or the session is full, otherwise insert the
row and return true. -/
def addEnrollment (st : Store) (studentId : String) (schedule_id : Int) : Bool × Store :=
  match st.course_schedule.find? (fun cs => cs.schedule_id == schedule_id) with
  | none => (false, st)
  | some cs =>
    match st.courses.find? (fun c => c.course_code == cs.course_code) with
    | none => (false, st)
    | some c =>
      if enrolledCount st schedule_id ≥ c.max_students then (false, st)
      else (true, { st with enrollments := st.enrollments ++ [⟨studentId, schedule_id⟩] })

/-- `Database::isAlreadyEnrolled` (main.cpp 196-206). -/
def isAlreadyEnrolled (st : Store) (studentId : String) (schedule_id : Int) : Bool :=
  decide ((st.enrollments.filter
    (fun e => e.student_id == studentId && e.schedule_id == schedule_id)).length > 0)

/-- The rows of `enrollments e JOIN course_schedule cs ON e.schedule_id =
cs.schedule_id`. -/
def enrollmentSessions (st : Store) : List (EnrollmentRow × ScheduleRow) :=
  st.enrollments.flatMap (fun e =>
    (st.course_schedule.filter (fun cs => e.schedule_id == cs.schedule_id)).map
      (fun cs => (e, cs)))

/-- `Database::hasClash` (main.cpp 207-216): the student has an enrollment
joined to a session with the given timeslot id. -/
def hasClash (st : Store) (studentId : String) (timeslot_id : Int) : Bool :=
  decide (((enrollmentSessions st).filter
    (fun p => p.1.student_id == studentId && p.2.timeslot_id == timeslot_id)).length > 0)

/-- `Database::dropEnrollment` (main.cpp 249-258): delete the matching rows and
report whether any row was affected. -/
def dropEnrollment (st : Store) (studentId : String) (schedule_id : Int) : Bool × Store :=
  let matching := st.enrollments.filter
    (fun e => e.student_id == studentId && e.schedule_id == schedule_id)
  let remaining := st.enrollments.filter
    (fun e => !(e.student_id == studentId && e.schedule_id == schedule_id))
  (decide (matching.length > 0), { st with enrollments := remaining })

/-- `Database::getStudentSemester` (main.cpp 92-98). -/
def getStudentSemester (st : Store) (studentId : String) : Int :=
  match st.students.find? (fun s => s.student_id == studentId) with
  | some s => s.semester
  | none => -1

/-- `Database::getStudentDegree` (main.cpp 99-105). -/
def getStudentDegree (st : Store) (studentId : String) : String :=
  match st.students.find? (fun s => s.student_id == studentId) with
  | some s => s.degree
  | none => ""

/-- The fields of `Database::ScheduledCourse` that
`getAvailableScheduledCourses` assigns; it leaves `department`, `semester`,
`faculty_id` and `room_id` unassigned and no caller modelled here reads them. -/
structure ScheduledCourse where
  schedule_id : Int
  course_code : String
  course_name : String
  faculty_name : String
  day : String
  start_time : String
  end_time : String
  room_number : String
  building : String
  timeslot_id : Int
  deriving DecidableEq, Repr

/-- The rows of `course_schedule cs JOIN courses c JOIN faculty f JOIN
timeslots t JOIN classrooms cl`, each joined on the session's foreign key. -/
def scheduleJoin (st : Store) :
    List (ScheduleRow × CourseRow × FacultyRow × TimeslotRow × ClassroomRow) :=
  st.course_schedule.flatMap (fun cs =>
    (st.courses.filter (fun c => cs.course_code == c.course_code)).flatMap (fun c =>
      (st.faculty.filter (fun f => cs.faculty_id == f.faculty_id)).flatMap (fun f =>
        (st.timeslots.filter (fun t => cs.timeslot_id == t.timeslot_id)).flatMap (fun t =>
          (st.classrooms.filter (fun cl => cs.room_id == cl.room_id)).map (fun cl =>
            (cs, c, f, t, cl))))))

/-- `Database::getAvailableScheduledCourses` (main.cpp 161-194): the joined
rows whose course has the given semester and department, each copied into a
`ScheduledCourse`. -/
def getAvailableScheduledCourses (st : Store) (semester : Int) (degree : String) :
    List ScheduledCourse :=
  ((scheduleJoin st).filter
      (fun row => row.2.1.semester == semester && row.2.1.department == degree)).map
    (fun row =>
      { schedule_id := row.1.schedule_id
        course_code := row.1.course_code
        course_name := row.2.1.course_name
        faculty_name := row.2.2.1.first_name ++ " " ++ row.2.2.1.last_name
        day := row.2.2.2.1.day_of_week
        start_time := row.2.2.2.1.start_time
        end_time := row.2.2.2.1.end_time
        room_number := row.2.2.2.2.room_number
        building := row.2.2.2.2.building
        timeslot_id := row.1.timeslot_id })

/-- `Database::getUnscheduledCourses` (main.cpp 523-533). -/
def getUnscheduledCourses (st : Store) : List (String × String) :=
  (st.courses.filter (fun c =>
    !(st.course_schedule.any (fun cs => cs.course_code == c.course_code)))).map
    (fun c => (c.course_code, c.course_name))

/-- `Database::getAllTimeslots` (main.cpp 534-544). -/
def getAllTimeslots (st : Store) : List (Int × String) :=
  st.timeslots.map (fun t =>
    (t.timeslot_id, t.day_of_week ++ " " ++ t.start_time ++ "-" ++ t.end_time))

/-- `Database::getAvailableRooms` (main.cpp 545-556). -/
def getAvailableRooms (st : Store) (timeslot_id : Int) : List (String × String) :=
  (st.classrooms.filter (fun cl =>
    !((st.course_schedule.filter (fun cs => cs.timeslot_id == timeslot_id)).any
        (fun cs => cs.room_id == cl.room_id)))).map
    (fun cl => (cl.room_id, cl.room_number ++ " " ++ cl.building))

/-- `Database::getAvailableFaculty` (main.cpp 557-568). -/
def getAvailableFaculty (st : Store) (timeslot_id : Int) : List (Int × String) :=
  (st.faculty.filter (fun f =>
    !((st.course_schedule.filter (fun cs => cs.timeslot_id == timeslot_id)).any
        (fun cs => cs.faculty_id == f.faculty_id)))).map
    (fun f => (f.faculty_id, f.first_name ++ " " ++ f.last_name))

/-- `Database::addCourseSchedule` (main.cpp 569-575): a plain insert of the
four given columns.

Modelled from the spec: the declaration of table `course_schedule` is not in
the source; the insert names no `schedule_id`, so the store assigns the key
(spec section 3, "schedule id (unique key)"). The assigned key is the argument
`new_id`. -/
def addCourseSchedule (st : Store) (new_id : Int) (course_code : String) (faculty_id : Int)
    (timeslot_id : Int) (room_id : String) : Store :=
  { st with course_schedule :=
      st.course_schedule ++ [⟨new_id, course_code, faculty_id, timeslot_id, room_id⟩] }

/-- `Database::removeCourseSchedule` (main.cpp 607-617): delete the session's
enrollments, then the session. -/
def removeCourseSchedule (st : Store) (schedule_id : Int) : Store :=
  { st with
    enrollments := st.enrollments.filter (fun e => !(e.schedule_id == schedule_id))
    course_schedule := st.course_schedule.filter (fun cs => !(cs.schedule_id == schedule_id)) }

end Database

/-! ## Student and Admin front-ends -/

/-- The message `Student::addCourse` prints. -/
inductive AddCourseOutcome where
  | noScheduledCourses
  | invalid
  | alreadyEnrolled
  | clash
  | enrolled
  | fullOrError
  deriving DecidableEq, Repr

/-- `Student::addCourse` (main.cpp 741-780) for the student `id` entering the
course number `cidx`. -/
def Student.addCourse (st : Store) (id : String) (cidx : Int) : AddCourseOutcome × Store :=
  let sem := Database.getStudentSemester st id
  let deg := Database.getStudentDegree st id
  let courses := Database.getAvailableScheduledCourses st sem deg
  if courses.isEmpty then (.noScheduledCourses, st)
  else if cidx < 1 || cidx > (courses.length : Int) then (.invalid, st)
  else
    match courses[(cidx - 1).toNat]? with
    | none => (.invalid, st)
    | some sc =>
      if Database.isAlreadyEnrolled st id sc.schedule_id then (.alreadyEnrolled, st)
      else if Database.hasClash st id sc.timeslot_id then (.clash, st)
      else
        match Database.addEnrollment st id sc.schedule_id with
        | (true, st1) => (.enrolled, st1)
        | (false, st1) => (.fullOrError, st1)

/-- The message `Admin::assignCourseSchedule` prints. -/
inductive AssignOutcome where
  | allAssigned
  | invalidSelection
  | noFaculty
  | noRooms
  | completed
  deriving DecidableEq, Repr

/-- `Admin::assignCourseSchedule` (main.cpp 1626-1689) for the entered
selections `c`, `t`, `f`, `r`; `new_id` is the key the store gives the inserted
session. -/
def Admin.assignCourseSchedule (st : Store) (new_id : Int) (c t f r : Int) :
    AssignOutcome × Store :=
  let courses := Database.getUnscheduledCourses st
  if courses.isEmpty then (.allAssigned, st)
  else
    let timeslots := Database.getAllTimeslots st
    if c < 1 || c > (courses.length : Int) || t < 1 || t > (timeslots.length : Int) then
      (.invalidSelection, st)
    else
      match courses[(c - 1).toNat]?, timeslots[(t - 1).toNat]? with
      | some course, some slot =>
        let availableFaculty := Database.getAvailableFaculty st slot.1
        if availableFaculty.isEmpty then (.noFaculty, st)
        else if f < 1 || f > (availableFaculty.length : Int) then (.invalidSelection, st)
        else
          let rooms := Database.getAvailableRooms st slot.1
          if rooms.isEmpty then (.noRooms, st)
          else if r < 1 || r > (rooms.length : Int) then (.invalidSelection, st)
          else
            match availableFaculty[(f - 1).toNat]?, rooms[(r - 1).toNat]? with
            | some fac, some room =>
              (.completed, Database.addCourseSchedule st new_id course.1 fac.1 slot.1 room.1)
            | _, _ => (.invalidSelection, st)
      | _, _ => (.invalidSelection, st)

/-! ## Sequences of operations -/

/-- One call of the offering allocator: an `Admin::assignCourseSchedule` run
with its entered selections, or a `Database::removeCourseSchedule`. -/
inductive ScheduleOp where
  | allocate (new_id c t f r : Int)
  | deallocate (schedule_id : Int)
  deriving DecidableEq, Repr

/-- The store after one allocator call. -/
def ScheduleOp.apply (st : Store) : ScheduleOp → Store
  | .allocate new_id c t f r => (Admin.assignCourseSchedule st new_id c t f r).2
  | .deallocate schedule_id => Database.removeCourseSchedule st schedule_id

/-- The store after a finite sequence of allocator calls. -/
def runSchedule (st : Store) (ops : List ScheduleOp) : Store :=
  ops.foldl ScheduleOp.apply st

/-- One call that touches enrollments: a `Student::addCourse` run, a
`Database::dropEnrollment`, or a `Database::removeCourseSchedule`. -/
inductive EnrollOp where
  | enroll (studentId : String) (cidx : Int)
  | drop (studentId : String) (schedule_id : Int)
  | deallocate (schedule_id : Int)
  deriving DecidableEq, Repr

/-- The store after one enrollment-side call. -/
def EnrollOp.apply (st : Store) : EnrollOp → Store
  | .enroll studentId cidx => (Student.addCourse st studentId cidx).2
  | .drop studentId schedule_id => (Database.dropEnrollment st studentId schedule_id).2
  | .deallocate schedule_id => Database.removeCourseSchedule st schedule_id

/-- The store after a finite sequence of enrollment-side calls. -/
def runEnroll (st : Store) (ops : List EnrollOp) : Store :=
  ops.foldl EnrollOp.apply st

/-! ## Properties of a store -/

/-- Capacity bound: every schedule id whose session row and course row resolve
has at most `max_students` enrollments. -/
def CapacityBound (st : Store) : Prop :=
  ∀ (s : Int) (cs : ScheduleRow) (c : CourseRow),
    st.course_schedule.find? (fun x => x.schedule_id == s) = some cs →
    st.courses.find? (fun x => x.course_code == cs.course_code) = some c →
    Database.enrolledCount st s ≤ c.max_students

/-- No two sessions share a faculty member and a timeslot, and no two share a
room and a timeslot. -/
def NoDoubleBooking (st : Store) : Prop :=
  st.course_schedule.Pairwise
      (fun a b => ¬ (a.faculty_id = b.faculty_id ∧ a.timeslot_id = b.timeslot_id)) ∧
  st.course_schedule.Pairwise
      (fun a b => ¬ (a.room_id = b.room_id ∧ a.timeslot_id = b.timeslot_id))

/-- The student holds an enrollment whose session has timeslot id `t`. -/
def HoldsTimeslot (st : Store) (studentId : String) (t : Int) : Prop :=
  ∃ e ∈ st.enrollments, e.student_id = studentId ∧
    ∃ cs ∈ st.course_schedule, cs.schedule_id = e.schedule_id ∧ cs.timeslot_id = t

/-- No student holds two enrollments whose sessions share a timeslot id. -/
def NoStudentClash (st : Store) : Prop :=
  st.enrollments.Pairwise (fun e1 e2 =>
    e1.student_id = e2.student_id →
      ∀ c1 ∈ st.course_schedule, ∀ c2 ∈ st.course_schedule,
        c1.schedule_id = e1.schedule_id → c2.schedule_id = e2.schedule_id →
          c1.timeslot_id ≠ c2.timeslot_id)

/-- Modelled from the spec: the declaration of table `course_schedule` is not
in the source; spec section 3 makes `schedule_id` its unique key. -/
def ScheduleKey (st : Store) : Prop :=
  (st.course_schedule.map (fun cs => cs.schedule_id)).Nodup

/-- The candidate list `Student::addCourse` shows the student. -/
def candidates (st : Store) (studentId : String) : List Database.ScheduledCourse :=
  Database.getAvailableScheduledCourses st
    (Database.getStudentSemester st studentId) (Database.getStudentDegree st studentId)

/-- The store with one more enrollment row. -/
def withEnrollment (st : Store) (studentId : String) (schedule_id : Int) : Store :=
  { st with enrollments := st.enrollments ++ [⟨studentId, schedule_id⟩] }

/-! ## A concrete store: the scenario of spec section 8 -/

namespace Scenario

/-- Course `CS101` with `max_students = 2`, and `MA101` with room for five. -/
def catalog : List CourseRow :=
  [⟨"CS101", "Programming", 3, 1, "BSCS", 2, ""⟩,
   ⟨"MA101", "Calculus", 3, 1, "BSCS", 5, ""⟩]

/-- Sessions 1 (`CS101`) and 2 (`MA101`), both at timeslot 10. -/
def sessions : List ScheduleRow :=
  [⟨1, "CS101", 5, 10, "R1"⟩, ⟨2, "MA101", 6, 10, "R2"⟩]

/-- The store with the given enrollments over the fixed catalogue. -/
def withEnrollments (es : List EnrollmentRow) : Store :=
  { students :=
      [⟨"A", "Ann", "A", "a@bnu.edu.pk", "BSCS", 1, "bnu"⟩,
       ⟨"B", "Bob", "B", "b@bnu.edu.pk", "BSCS", 1, "bnu"⟩,
       ⟨"C", "Cy", "C", "c@bnu.edu.pk", "BSCS", 1, "bnu"⟩]
    faculty :=
      [⟨5, "Fay", "F", "f@bnu.edu.pk", "PhD", "PhD", "CS", "Professor", "faculty_scit"⟩,
       ⟨6, "Gus", "G", "g@bnu.edu.pk", "PhD", "PhD", "MA", "Professor", "faculty_scit"⟩]
    courses := catalog
    classrooms := [⟨"R1", "Main", "101", 40, "Lecture"⟩, ⟨"R2", "Main", "102", 40, "Lecture"⟩]
    timeslots := [⟨10, "Monday", "09:00:00", "10:00:00"⟩, ⟨11, "Monday", "10:00:00", "11:00:00"⟩]
    course_schedule := sessions
    enrollments := es
    marks := [] }

/-- Nobody is enrolled. -/
def empty : Store := withEnrollments []

/-- Student A is enrolled in session 1. -/
def oneEnrolled : Store := withEnrollments [⟨"A", 1⟩]

/-- Students A and B are enrolled in session 1, which is then full. -/
def full : Store := withEnrollments [⟨"A", 1⟩, ⟨"B", 1⟩]

end Scenario

/-! ## Marks, listings and the Faculty front-end -/

/-- Model of `std::string::find(pat)` from position 0 on the characters of a
string: the first index at which `pat` occurs, `none` for `npos`. -/
def findSub (pat : List Char) : List Char → Option Nat
  | [] => if pat.isEmpty then some 0 else none
  | c :: s => if pat.isPrefixOf (c :: s) then some 0 else (findSub pat s).map (fun i => i + 1)

/-- The course code the front-ends cut out of a label `code - name`:
`label.substr(0, label.find(" - "))` (main.cpp 1182, 1285); with `npos` the
whole label is taken. -/
def labelCode (label : String) : String :=
  match findSub " - ".toList label.toList with
  | some i => String.mk (label.toList.take i)
  | none => label

namespace Database

/-- `Database::getFacultyCourses` (main.cpp 306-320): the distinct (course
code, course name) pairs of the faculty member's sessions, as labels. -/
def getFacultyCourses (st : Store) (facultyId : Int) : List String :=
  (((st.course_schedule.flatMap (fun cs =>
      (st.courses.filter (fun c => cs.course_code == c.course_code)).map (fun c => (cs, c)))).filter
      (fun row => row.1.faculty_id == facultyId)).map
      (fun row => (row.1.course_code, row.2.course_name))).dedup.map
    (fun p => p.1 ++ " - " ++ p.2)

/-- `Database::StudentInfo` (main.cpp 322-330). -/
structure StudentInfo where
  student_id : String
  first_name : String
  last_name : String
  email : String
  semester : Int
  degree : String
  deriving DecidableEq, Repr

/-- `Database::getEnrolledStudentsInCourse` (main.cpp 332-355): the distinct
students joined through an enrollment to a session of the course. -/
def getEnrolledStudentsInCourse (st : Store) (course_code : String) : List StudentInfo :=
  (((st.enrollments.flatMap (fun e =>
      (st.students.filter (fun s => e.student_id == s.student_id)).flatMap (fun s =>
        (st.course_schedule.filter (fun cs => e.schedule_id == cs.schedule_id)).map
          (fun cs => (e, s, cs))))).filter
      (fun row => row.2.2.course_code == course_code)).map
      (fun row =>
        ({ student_id := row.2.1.student_id
           first_name := row.2.1.first_name
           last_name := row.2.1.last_name
           email := row.2.1.email
           semester := row.2.1.semester
           degree := row.2.1.degree } : StudentInfo))).dedup

/-- `Database::addMarks` (main.cpp 395-405): `INSERT ... ON DUPLICATE KEY
UPDATE total_marks, obtained_marks`.

Modelled from the spec: the declaration of table `marks` is not in the source;
the key the statement refers to is the composite key (course_code, student_id,
assignment_name) of spec section 3. A row with the key is overwritten in its
two value columns, otherwise the row is inserted. -/
def addMarks (st : Store) (course_code student_id assignment_name : String)
    (total_marks obtained_marks : Int) : Store :=
  if st.marks.any (fun m => m.course_code == course_code && m.student_id == student_id &&
      m.assignment_name == assignment_name) then
    { st with marks := st.marks.map (fun m =>
        if m.course_code == course_code && m.student_id == student_id &&
            m.assignment_name == assignment_name then
          { m with total_marks := total_marks, obtained_marks := obtained_marks }
        else m) }
  else
    { st with marks := st.marks ++
        [⟨course_code, student_id, assignment_name, total_marks, obtained_marks⟩] }

/-- `Database::updateMarks` (main.cpp 407-416): `UPDATE marks SET
obtained_marks = ? WHERE` the three key columns match. -/
def updateMarks (st : Store) (course_code student_id assignment_name : String)
    (obtained_marks : Int) : Store :=
  { st with marks := st.marks.map (fun m =>
      if m.course_code == course_code && m.student_id == student_id &&
          m.assignment_name == assignment_name then
        { m with obtained_marks := obtained_marks }
      else m) }

/-- `Database::getAssignmentsForCourse` (main.cpp 418-427). -/
def getAssignmentsForCourse (st : Store) (course_code : String) : List String :=
  ((st.marks.filter (fun m => m.course_code == course_code)).map
    (fun m => m.assignment_name)).dedup

/-- `Database::getStudentMarksForAssignment` (main.cpp 429-438): pairs of the
student id and (total_marks, obtained_marks). -/
def getStudentMarksForAssignment (st : Store) (course_code assignment_name : String) :
    List (String × (Int × Int)) :=
  (st.marks.filter (fun m =>
    m.course_code == course_code && m.assignment_name == assignment_name)).map
    (fun m => (m.student_id, (m.total_marks, m.obtained_marks)))

/-- `Database::ScheduledAssignment` (main.cpp 576-580). -/
structure ScheduledAssignment where
  schedule_id : Int
  course_code : String
  course_name : String
  faculty_name : String
  room : String
  timeslot : String
  deriving DecidableEq, Repr

/-- `Database::getAllCourseSchedules` (main.cpp 581-606). -/
def getAllCourseSchedules (st : Store) : List ScheduledAssignment :=
  (scheduleJoin st).map (fun row =>
    { schedule_id := row.1.schedule_id
      course_code := row.1.course_code
      course_name := row.2.1.course_name
      faculty_name := row.2.2.1.first_name ++ " " ++ row.2.2.1.last_name
      room := row.2.2.2.2.room_number ++ " " ++ row.2.2.2.2.building
      timeslot := row.2.2.2.1.day_of_week ++ " " ++ row.2.2.2.1.start_time ++ "-" ++
        row.2.2.2.1.end_time })

/-- `Database::Mark` (main.cpp 624-629). -/
structure Mark where
  assignment_name : String
  total_marks : Int
  obtained_marks : Int
  course_name : String
  deriving DecidableEq, Repr

/-- The rows `getStudentMarks` selects, before `ORDER BY`: `marks m JOIN
courses c ON m.course_code = c.course_code WHERE m.student_id = ?`, with
`AND m.course_code = ?` when the course code argument is not empty. -/
def studentMarkRows (st : Store) (student_id course_code : String) : List Mark :=
  ((st.marks.flatMap (fun m =>
      (st.courses.filter (fun c => m.course_code == c.course_code)).map (fun c => (m, c)))).filter
      (fun row => row.1.student_id == student_id &&
        (course_code.isEmpty || row.1.course_code == course_code))).map
    (fun row =>
      { assignment_name := row.1.assignment_name
        total_marks := row.1.total_marks
        obtained_marks := row.1.obtained_marks
        course_name := row.2.course_name })

/-- `Database::getStudentMarks` (main.cpp 630-660): the selected rows in
ascending order of `assignment_name`; rows with equal names keep the order of
the selection. -/
def getStudentMarks (st : Store) (student_id course_code : String) : List Mark :=
  (studentMarkRows st student_id course_code).insertionSort
    (fun a b => a.assignment_name ≤ b.assignment_name)

end Database

/-- The message `Admin::removeCourseAssignment` prints. -/
inductive RemoveOutcome where
  | noAssignedCourses
  | invalidSelection
  | removed
  deriving DecidableEq, Repr

/-- `Admin::removeCourseAssignment` (main.cpp 1690-1711) for the entered number
`idx`. -/
def Admin.removeCourseAssignment (st : Store) (idx : Int) : RemoveOutcome × Store :=
  let assignments := Database.getAllCourseSchedules st
  if assignments.isEmpty then (.noAssignedCourses, st)
  else if idx < 1 || idx > (assignments.length : Int) then (.invalidSelection, st)
  else
    match assignments[(idx - 1).toNat]? with
    | none => (.invalidSelection, st)
    | some a => (.removed, Database.removeCourseSchedule st a.schedule_id)

/-- The `while` loop of `Faculty::addMarks` (main.cpp 1228-1261) over the
numbers still to be read from the input: a student choice, then, for a valid
choice, the obtained marks. The run ends when the list of students is empty,
on choice 0, or when the input is used up. -/
def Faculty.addMarksLoop (course_code assignment_name : String) (total_marks : Int) :
    Store → List Database.StudentInfo → List Int → Store
  | st, _, [] => st
  | st, _, [_] => st
  | st, students_without_marks, student_choice :: obtained_marks :: rest =>
    if students_without_marks.isEmpty then st
    else if student_choice == 0 then st
    else if student_choice < 1 || student_choice > (students_without_marks.length : Int) then
      Faculty.addMarksLoop course_code assignment_name total_marks st students_without_marks
        (obtained_marks :: rest)
    else
      match students_without_marks[(student_choice - 1).toNat]? with
      | none => st
      | some student =>
        Faculty.addMarksLoop course_code assignment_name total_marks
          (Database.addMarks st course_code student.student_id assignment_name total_marks
            obtained_marks)
          (students_without_marks.eraseIdx (student_choice - 1).toNat) rest

/-- `Faculty::addMarks` (main.cpp 1161-1262) for the faculty member
`facultyId`, the entered course number, assignment name and total marks, and
the numbers entered in the loop. `std::sort` by first name is modelled by a
sort that keeps the listing order among equal first names. -/
def Faculty.addMarks (st : Store) (facultyId course_choice : Int) (assignment_name : String)
    (total_marks : Int) (inputs : List Int) : Store :=
  let courses := Database.getFacultyCourses st facultyId
  if courses.isEmpty then st
  else if course_choice < 1 || course_choice > (courses.length : Int) then st
  else
    match courses[(course_choice - 1).toNat]? with
    | none => st
    | some label =>
      let course_code := labelCode label
      let students := Database.getEnrolledStudentsInCourse st course_code
      if students.isEmpty then st
      else
        let sorted := students.insertionSort (fun a b => a.first_name ≤ b.first_name)
        let existing_marks := Database.getStudentMarksForAssignment st course_code assignment_name
        let students_without_marks := sorted.filter (fun student =>
          !(existing_marks.any (fun mark => mark.1 == student.student_id)))
        if students_without_marks.isEmpty then st
        else
          Faculty.addMarksLoop course_code assignment_name total_marks st
            students_without_marks inputs

/-- The `while (true)` loop of `Faculty::editMarks` (main.cpp 1323-1373) over
the numbers still to be read from the input: a student choice, then, for a
valid choice, the new obtained marks. `marks` is the listing the loop holds;
it is read again after every update. -/
def Faculty.editMarksLoop (course_code assignment_name : String) :
    Store → List (String × (Int × Int)) → List Int → Store
  | st, _, [] => st
  | st, _, [_] => st
  | st, marks, student_choice :: new_marks :: rest =>
    if student_choice == 0 then st
    else if student_choice < 1 || student_choice > (marks.length : Int) then
      Faculty.editMarksLoop course_code assignment_name st marks (new_marks :: rest)
    else
      match marks[(student_choice - 1).toNat]? with
      | none => st
      | some selected_mark =>
        if new_marks < 0 || new_marks > selected_mark.2.1 then
          Faculty.editMarksLoop course_code assignment_name st marks rest
        else
          let st1 := Database.updateMarks st course_code selected_mark.1 assignment_name new_marks
          Faculty.editMarksLoop course_code assignment_name st1
            (Database.getStudentMarksForAssignment st1 course_code assignment_name) rest

/-- `Faculty::editMarks` (main.cpp 1264-1374) for the faculty member
`facultyId`, the entered course and assignment numbers, and the numbers
entered in the loop. -/
def Faculty.editMarks (st : Store) (facultyId course_choice assignment_choice : Int)
    (inputs : List Int) : Store :=
  let courses := Database.getFacultyCourses st facultyId
  if courses.isEmpty then st
  else if course_choice < 1 || course_choice > (courses.length : Int) then st
  else
    match courses[(course_choice - 1).toNat]? with
    | none => st
    | some label =>
      let course_code := labelCode label
      let assignments := Database.getAssignmentsForCourse st course_code
      if assignments.isEmpty then st
      else if assignment_choice < 1 || assignment_choice > (assignments.length : Int) then st
      else
        match assignments[(assignment_choice - 1).toNat]? with
        | none => st
        | some assignment_name =>
          let marks := Database.getStudentMarksForAssignment st course_code assignment_name
          if marks.isEmpty then st
          else Faculty.editMarksLoop course_code assignment_name st marks inputs

/-- One call of the assessment ledger from the Faculty menu: a
`Faculty::addMarks` run or a `Faculty::editMarks` run. -/
inductive MarkOp where
  | record (facultyId course_choice : Int) (assignment_name : String) (total_marks : Int)
      (inputs : List Int)
  | update (facultyId course_choice assignment_choice : Int) (inputs : List Int)
  deriving DecidableEq, Repr

/-- The store after one ledger call. -/
def MarkOp.apply (st : Store) : MarkOp → Store
  | .record facultyId course_choice assignment_name total_marks inputs =>
    Faculty.addMarks st facultyId course_choice assignment_name total_marks inputs
  | .update facultyId course_choice assignment_choice inputs =>
    Faculty.editMarks st facultyId course_choice assignment_choice inputs

/-- The store after a finite sequence of ledger calls. -/
def runMarks (st : Store) (ops : List MarkOp) : Store :=
  ops.foldl MarkOp.apply st

/-- Every marks row has `0 <= obtained_marks <= total_marks`. -/
def MarkBounds (st : Store) : Prop :=
  ∀ m ∈ st.marks, 0 ≤ m.obtained_marks ∧ m.obtained_marks ≤ m.total_marks

/-- Modelled from the spec: the declaration of table `marks` is not in the
source; spec section 3 makes (course_code, student_id, assignment_name) its
key, so at most one row carries a given key. -/
def MarksKey (st : Store) : Prop :=
  (st.marks.map (fun m => (m.course_code, m.student_id, m.assignment_name))).Nodup

/-- No two sessions share a course code. -/
def OneSessionPerCourse (st : Store) : Prop :=
  st.course_schedule.Pairwise (fun a b => a.course_code ≠ b.course_code)

namespace Scenario

/-- Only `CS101` is scheduled (session 1); `MA101` has no session. -/
def oneSession : Store :=
  { empty with course_schedule := [⟨1, "CS101", 5, 10, "R1"⟩] }

/-- Student A is enrolled in session 1 and holds one mark, 7 of 10, for
`Quiz1` of `CS101`. -/
def marked : Store :=
  { oneEnrolled with marks := [⟨"CS101", "A", "Quiz1", 10, 7⟩] }

end Scenario

/-! ## Label splitting, selection traces and further store properties -/

/-- The value of `std::string::npos` for a 64-bit `size_t`. -/
def npos : Nat := 2 ^ 64 - 1

/-- The course name the front-ends cut out of a label:
`label.substr(label.find(" - ") + 3)` (main.cpp 1183, 1286). The position is
computed in `size_t`, so `npos + 3` wraps to 2; `substr` throws when the
position lies behind the end of the string, which is the result `none`.
Positions count characters. -/
def labelName (label : String) : Option String :=
  let found := match findSub " - ".toList label.toList with
    | some i => i
    | none => npos
  let pos := (found + 3) % 2 ^ 64
  if pos > label.length then none else some (String.mk (label.toList.drop pos))

namespace Scenario

/-- Student A is enrolled in session 1 at timeslot 10 (Monday 09:00-10:00);
session 2 is at timeslot 12 (Monday 09:30-10:30), which overlaps timeslot 10
on the clock. -/
def overlapping : Store :=
  { oneEnrolled with
    timeslots := [⟨10, "Monday", "09:00:00", "10:00:00"⟩, ⟨12, "Monday", "09:30:00", "10:30:00"⟩]
    course_schedule := [⟨1, "CS101", 5, 10, "R1"⟩, ⟨2, "MA101", 6, 12, "R2"⟩] }

end Scenario

/-! ## Administrative writes and concurrent enrolls -/

namespace Database

/-- `Database::removeFaculty` (main.cpp 482-486): delete the faculty rows of
the id; no other table is touched. -/
def removeFaculty (st : Store) (faculty_id : Int) : Store :=
  { st with faculty := st.faculty.filter (fun f => !(f.faculty_id == faculty_id)) }

/-- The three `SELECT` statements of `Database::addEnrollment` (main.cpp
219-242): `none` when a lookup yields no row, otherwise the values read,
(max_students, enrolled). -/
def addEnrollmentRead (st : Store) (schedule_id : Int) : Option (Int × Int) :=
  match st.course_schedule.find? (fun cs => cs.schedule_id == schedule_id) with
  | none => none
  | some cs =>
    match st.courses.find? (fun c => c.course_code == cs.course_code) with
    | none => none
    | some c => some (c.max_students, enrolledCount st schedule_id)

/-- The rest of `Database::addEnrollment` (main.cpp 243-247) on the values
read before: the comparison and the `INSERT`, run on the store as it is then. -/
def addEnrollmentWrite (st : Store) (studentId : String) (schedule_id : Int)
    (read : Option (Int × Int)) : Bool × Store :=
  match read with
  | none => (false, st)
  | some (max_students, enrolled) =>
    if enrolled ≥ max_students then (false, st)
    else (true, { st with enrollments := st.enrollments ++ [⟨studentId, schedule_id⟩] })

end Database

/-- How far a client process is in its `Database::addEnrollment` call: not
started, `SELECT`s done with the values read, or returned with the result. -/
inductive EnrollPhase where
  | start
  | hasRead (read : Option (Int × Int))
  | done (result : Bool)
  deriving DecidableEq, Repr

/-- A client process calling `Database::addEnrollment(studentId, schedule_id)`
on the shared store. The source opens no transaction, so the statements of one
call reach the store one by one and statements of other clients may run in
between. -/
structure EnrollClient where
  studentId : String
  schedule_id : Int
  phase : EnrollPhase
  deriving DecidableEq, Repr

/-- One step of a client on the shared store: its reads, then its comparison
and insert; a client that has returned does nothing. The three reads are taken
as one step, which only removes interleavings. -/
def EnrollClient.step (st : Store) (cl : EnrollClient) : Store × EnrollClient :=
  match cl.phase with
  | .start =>
    (st, { cl with phase := .hasRead (Database.addEnrollmentRead st cl.schedule_id) })
  | .hasRead read =>
    ((Database.addEnrollmentWrite st cl.studentId cl.schedule_id read).2,
      { cl with
        phase := .done (Database.addEnrollmentWrite st cl.studentId cl.schedule_id read).1 })
  | .done _ => (st, cl)

/-- The shared store and the clients after an interleaving, given as the list
of the clients that take the next step, in order. -/
def runInterleaving (st : Store) (clients : List EnrollClient) :
    List Nat → Store × List EnrollClient
  | [] => (st, clients)
  | i :: rest =>
    match clients[i]? with
    | none => runInterleaving st clients rest
    | some cl => runInterleaving (cl.step st).1 (clients.set i (cl.step st).2) rest

namespace Scenario

/-- The store `oneEnrolled` after `Database::removeFaculty(6)`: session 2 still
names faculty 6. -/
def facultyRemoved : Store := Database.removeFaculty oneEnrolled 6

end Scenario

/-! ## Database::addEnrollment -/

theorem addEnrollment_of_missing (st : Store) (studentId : String) (schedule_id : Int)
    (h : st.course_schedule.find? (fun cs => cs.schedule_id == schedule_id) = none) :
    Database.addEnrollment st studentId schedule_id = (false, st) := by
  simp [Database.addEnrollment, h]

theorem addEnrollment_of_resolved (st : Store) (studentId : String) (schedule_id : Int)
    (cs : ScheduleRow) (c : CourseRow)
    (hcs : st.course_schedule.find? (fun x => x.schedule_id == schedule_id) = some cs)
    (hc : st.courses.find? (fun x => x.course_code == cs.course_code) = some c) :
    Database.addEnrollment st studentId schedule_id =
      if Database.enrolledCount st schedule_id ≥ c.max_students then (false, st)
      else (true, withEnrollment st studentId schedule_id) := by
  simp [Database.addEnrollment, hcs, hc, withEnrollment]

theorem enrolledCount_withEnrollment (st : Store) (studentId : String) (schedule_id s : Int) :
    Database.enrolledCount (withEnrollment st studentId schedule_id) s =
      Database.enrolledCount st s + (if schedule_id = s then 1 else 0) := by
  simp only [Database.enrolledCount, withEnrollment, List.filter_append, List.length_append]
  by_cases h : schedule_id = s
  · simp [h, List.filter_cons]
  · simp [h, List.filter_cons]

/-- C9. Enroll on a missing session: when no `course_schedule` row has the
schedule id, `Database::addEnrollment` returns false and leaves the store
unchanged. -/
theorem addEnrollment_missing_session (st : Store) (studentId : String) (schedule_id : Int)
    (h : ∀ cs ∈ st.course_schedule, cs.schedule_id ≠ schedule_id) :
    Database.addEnrollment st studentId schedule_id = (false, st) := by
  apply addEnrollment_of_missing
  rw [List.find?_eq_none]
  intro cs hmem
  simpa using h cs hmem

theorem addEnrollment_missing_session_witness :
    (∀ cs ∈ Scenario.oneEnrolled.course_schedule, cs.schedule_id ≠ 7) ∧
      Database.addEnrollment Scenario.oneEnrolled "B" 7 = (false, Scenario.oneEnrolled) :=
  ⟨by decide, addEnrollment_missing_session Scenario.oneEnrolled "B" 7 (by decide)⟩

/-- C5. Capacity rejection: for an existing session whose enrollment count has
reached the `max_students` of its course, `Database::addEnrollment` returns
false and leaves the whole store unchanged. -/
theorem addEnrollment_full_rejected (st : Store) (studentId : String) (schedule_id : Int)
    (cs : ScheduleRow) (c : CourseRow)
    (hcs : st.course_schedule.find? (fun x => x.schedule_id == schedule_id) = some cs)
    (hc : st.courses.find? (fun x => x.course_code == cs.course_code) = some c)
    (hfull : Database.enrolledCount st schedule_id ≥ c.max_students) :
    Database.addEnrollment st studentId schedule_id = (false, st) := by
  rw [addEnrollment_of_resolved st studentId schedule_id cs c hcs hc, if_pos hfull]

theorem addEnrollment_full_rejected_witness :
    Database.enrolledCount Scenario.full 1 = 2 ∧
      Database.addEnrollment Scenario.full "C" 1 = (false, Scenario.full) :=
  ⟨by decide,
   addEnrollment_full_rejected Scenario.full "C" 1
     ⟨1, "CS101", 5, 10, "R1"⟩ ⟨"CS101", "Programming", 3, 1, "BSCS", 2, ""⟩
     (by decide) (by decide) (by decide)⟩

/-- C1. Capacity bound (sequential): when every resolvable schedule id has at
most `max_students` enrollments, the same holds of the store after
`Database::addEnrollment`, whatever it returns. -/
theorem addEnrollment_preserves_capacity (st : Store) (studentId : String) (schedule_id : Int)
    (h : CapacityBound st) :
    CapacityBound (Database.addEnrollment st studentId schedule_id).2 := by
  cases hcs : st.course_schedule.find? (fun x => x.schedule_id == schedule_id) with
  | none => rw [addEnrollment_of_missing st studentId schedule_id hcs]; exact h
  | some cs =>
    cases hc : st.courses.find? (fun x => x.course_code == cs.course_code) with
    | none => simpa [Database.addEnrollment, hcs, hc] using h
    | some c =>
      rw [addEnrollment_of_resolved st studentId schedule_id cs c hcs hc]
      by_cases hfull : Database.enrolledCount st schedule_id ≥ c.max_students
      · rw [if_pos hfull]; exact h
      · rw [if_neg hfull]
        intro s cs1 c1 h1 h2
        have hold := h s cs1 c1 h1 h2
        rw [enrolledCount_withEnrollment]
        by_cases hs : schedule_id = s
        · subst hs
          have e1 : cs1 = cs := by
            have : some cs1 = some cs := h1.symm.trans hcs
            exact Option.some.inj this
          subst e1
          have e2 : c1 = c := by
            have : some c1 = some c := h2.symm.trans hc
            exact Option.some.inj this
          subst e2
          simp only [if_true]
          omega
        · simp only [hs, if_false]
          omega

theorem capacityBound_of_rows (st : Store)
    (h : ∀ cs ∈ st.course_schedule, ∀ c ∈ st.courses, cs.course_code = c.course_code →
      Database.enrolledCount st cs.schedule_id ≤ c.max_students) :
    CapacityBound st := by
  intro s cs c hcs hc
  have h1 : cs.schedule_id = s := by simpa using List.find?_some hcs
  have h2 : c.course_code = cs.course_code := by simpa using List.find?_some hc
  have := h cs (List.mem_of_find?_eq_some hcs) c (List.mem_of_find?_eq_some hc) h2.symm
  rwa [h1] at this

theorem addEnrollment_preserves_capacity_witness :
    CapacityBound Scenario.oneEnrolled ∧
      CapacityBound (Database.addEnrollment Scenario.oneEnrolled "B" 1).2 :=
  ⟨capacityBound_of_rows _ (by decide),
   addEnrollment_preserves_capacity Scenario.oneEnrolled "B" 1
     (capacityBound_of_rows _ (by decide))⟩

/-! ## Database::removeCourseSchedule -/

/-- C4. Cascade completeness: after `Database::removeCourseSchedule(s)` no
`enrollments` row and no `course_schedule` row has schedule id `s`. -/
theorem removeCourseSchedule_cascade (st : Store) (s : Int) :
    (∀ e ∈ (Database.removeCourseSchedule st s).enrollments, e.schedule_id ≠ s) ∧
      (∀ cs ∈ (Database.removeCourseSchedule st s).course_schedule, cs.schedule_id ≠ s) := by
  constructor
  · intro e he
    simp only [Database.removeCourseSchedule, List.mem_filter] at he
    simpa using he.2
  · intro cs hcs
    simp only [Database.removeCourseSchedule, List.mem_filter] at hcs
    simpa using hcs.2

/-! ## The checks of Student::addCourse -/

theorem isAlreadyEnrolled_iff (st : Store) (studentId : String) (schedule_id : Int) :
    Database.isAlreadyEnrolled st studentId schedule_id = true ↔
      (⟨studentId, schedule_id⟩ : EnrollmentRow) ∈ st.enrollments := by
  simp only [Database.isAlreadyEnrolled, decide_eq_true_eq, gt_iff_lt,
    List.length_pos_iff_exists_mem, List.mem_filter, Bool.and_eq_true, beq_iff_eq]
  constructor
  · rintro ⟨e, he, h1, h2⟩
    cases e
    simp only at h1 h2
    subst h1 h2
    exact he
  · intro h
    exact ⟨_, h, rfl, rfl⟩

theorem hasClash_iff (st : Store) (studentId : String) (t : Int) :
    Database.hasClash st studentId t = true ↔ HoldsTimeslot st studentId t := by
  simp only [Database.hasClash, Database.enrollmentSessions, decide_eq_true_eq, gt_iff_lt,
    List.length_pos_iff_exists_mem, List.mem_filter, Bool.and_eq_true, beq_iff_eq,
    List.mem_flatMap, List.mem_map, HoldsTimeslot]
  constructor
  · rintro ⟨p, ⟨e, he, cs, ⟨hcs, hid⟩, rfl⟩, h1, h2⟩
    exact ⟨e, he, h1, cs, hcs, hid.symm, h2⟩
  · rintro ⟨e, he, h1, cs, hcs, hid, h2⟩
    exact ⟨(e, cs), ⟨e, he, cs, ⟨hcs, hid.symm⟩, rfl⟩, h1, h2⟩

theorem addCourse_of_selected (st : Store) (id : String) (cidx : Int)
    (sc : Database.ScheduledCourse) (hsel : 1 ≤ cidx)
    (hsc : (candidates st id)[(cidx - 1).toNat]? = some sc) :
    Student.addCourse st id cidx =
      if Database.isAlreadyEnrolled st id sc.schedule_id then (.alreadyEnrolled, st)
      else if Database.hasClash st id sc.timeslot_id then (.clash, st)
      else
        match Database.addEnrollment st id sc.schedule_id with
        | (true, st1) => (.enrolled, st1)
        | (false, st1) => (.fullOrError, st1) := by
  obtain ⟨hlt, -⟩ := List.getElem?_eq_some.mp hsc
  have hne : (candidates st id).isEmpty = false := by
    cases hl : candidates st id with
    | nil => rw [hl] at hlt; simp at hlt
    | cons a l => rfl
  have hrange : ¬ (cidx < 1 ∨ cidx > ((candidates st id).length : Int)) := by omega
  unfold candidates at hsc hne hrange
  simp only [Student.addCourse, hne, hsc, Bool.false_eq_true, if_false, Bool.or_eq_true,
    decide_eq_true_eq, hrange]

theorem addEnrollment_cases (st : Store) (studentId : String) (schedule_id : Int) :
    Database.addEnrollment st studentId schedule_id = (false, st) ∨
      Database.addEnrollment st studentId schedule_id =
        (true, withEnrollment st studentId schedule_id) := by
  cases hcs : st.course_schedule.find? (fun x => x.schedule_id == schedule_id) with
  | none => exact Or.inl (addEnrollment_of_missing st studentId schedule_id hcs)
  | some cs =>
    cases hc : st.courses.find? (fun x => x.course_code == cs.course_code) with
    | none => left; simp [Database.addEnrollment, hcs, hc]
    | some c =>
      rw [addEnrollment_of_resolved st studentId schedule_id cs c hcs hc]
      by_cases hfull : Database.enrolledCount st schedule_id ≥ c.max_students
      · left; rw [if_pos hfull]
      · right; rw [if_neg hfull]

theorem addCourse_store (st : Store) (id : String) (cidx : Int) :
    (Student.addCourse st id cidx).2 = st ∨
      ∃ sc ∈ candidates st id,
        Database.isAlreadyEnrolled st id sc.schedule_id = false ∧
        Database.hasClash st id sc.timeslot_id = false ∧
        (Student.addCourse st id cidx).2 = withEnrollment st id sc.schedule_id := by
  by_cases hsel : 1 ≤ cidx
  · cases hsc : (candidates st id)[(cidx - 1).toNat]? with
    | none =>
      left
      unfold candidates at hsc
      simp only [Student.addCourse, hsc]
      split_ifs <;> rfl
    | some sc =>
      rw [addCourse_of_selected st id cidx sc hsel hsc]
      by_cases h1 : Database.isAlreadyEnrolled st id sc.schedule_id = true
      · left; rw [if_pos h1]
      · by_cases h2 : Database.hasClash st id sc.timeslot_id = true
        · left; rw [if_neg h1, if_pos h2]
        · rw [if_neg h1, if_neg h2]
          rcases addEnrollment_cases st id sc.schedule_id with h | h
          · left; rw [h]
          · right
            refine ⟨sc, List.getElem?_mem hsc, ?_, ?_, ?_⟩
            · simpa using h1
            · simpa using h2
            · rw [h]
  · left
    have hlt : cidx < 1 := by omega
    simp only [Student.addCourse, hlt, decide_True, Bool.true_or, if_true]
    split_ifs <;> rfl

/-- C6. Clash rejection: when the student already holds an enrollment whose
session has the timeslot id of the chosen offering, `Student::addCourse` is
rejected, as a duplicate when the chosen session itself is already enrolled and
as a clash otherwise, and the store is unchanged. -/
theorem addCourse_clash_rejected (st : Store) (id : String) (cidx : Int)
    (sc : Database.ScheduledCourse) (hsel : 1 ≤ cidx)
    (hsc : (candidates st id)[(cidx - 1).toNat]? = some sc)
    (hclash : HoldsTimeslot st id sc.timeslot_id) :
    Student.addCourse st id cidx =
      (if (⟨id, sc.schedule_id⟩ : EnrollmentRow) ∈ st.enrollments then
          AddCourseOutcome.alreadyEnrolled
        else AddCourseOutcome.clash, st) := by
  rw [addCourse_of_selected st id cidx sc hsel hsc]
  by_cases h1 : (⟨id, sc.schedule_id⟩ : EnrollmentRow) ∈ st.enrollments
  · rw [if_pos ((isAlreadyEnrolled_iff st id sc.schedule_id).mpr h1), if_pos h1]
  · have h1b : ¬ Database.isAlreadyEnrolled st id sc.schedule_id = true :=
      fun h => h1 ((isAlreadyEnrolled_iff st id sc.schedule_id).mp h)
    rw [if_neg h1b, if_pos ((hasClash_iff st id sc.timeslot_id).mpr hclash), if_neg h1]

theorem addCourse_clash_rejected_witness :
    HoldsTimeslot Scenario.oneEnrolled "A" 10 ∧
      Student.addCourse Scenario.oneEnrolled "A" 2 =
        (AddCourseOutcome.clash, Scenario.oneEnrolled) :=
  ⟨(hasClash_iff Scenario.oneEnrolled "A" 10).mp (by decide),
   addCourse_clash_rejected Scenario.oneEnrolled "A" 2
     ⟨2, "MA101", "Calculus", "Gus G", "Monday", "09:00:00", "10:00:00", "102", "Main", 10⟩
     (by decide) (by decide) ((hasClash_iff Scenario.oneEnrolled "A" 10).mp (by decide))⟩

/-- C7. Duplicate rejection: when the row (studentId, scheduleId) of the chosen
offering already exists, `Student::addCourse` reports a duplicate and leaves
the store unchanged; and no run of `Student::addCourse` makes a table of
distinct rows contain a repeated row. -/
theorem addCourse_duplicate_rejected (st : Store) (id : String) (cidx : Int)
    (sc : Database.ScheduledCourse) (hsel : 1 ≤ cidx)
    (hsc : (candidates st id)[(cidx - 1).toNat]? = some sc)
    (hdup : (⟨id, sc.schedule_id⟩ : EnrollmentRow) ∈ st.enrollments) :
    Student.addCourse st id cidx = (AddCourseOutcome.alreadyEnrolled, st) ∧
      ∀ (id2 : String) (cidx2 : Int), st.enrollments.Nodup →
        (Student.addCourse st id2 cidx2).2.enrollments.Nodup := by
  constructor
  · rw [addCourse_of_selected st id cidx sc hsel hsc,
      if_pos ((isAlreadyEnrolled_iff st id sc.schedule_id).mpr hdup)]
  · intro id2 cidx2 hnd
    rcases addCourse_store st id2 cidx2 with h | ⟨sc2, -, hnew, -, h⟩
    · rw [h]; exact hnd
    · rw [h]
      have hnot : (⟨id2, sc2.schedule_id⟩ : EnrollmentRow) ∉ st.enrollments := by
        intro hmem
        rw [(isAlreadyEnrolled_iff st id2 sc2.schedule_id).mpr hmem] at hnew
        exact Bool.noConfusion hnew
      simp only [withEnrollment]
      rw [List.nodup_append]
      refine ⟨hnd, List.nodup_singleton _, ?_⟩
      intro a ha hb
      rw [List.mem_singleton] at hb
      exact hnot (hb ▸ ha)

theorem addCourse_duplicate_rejected_witness :
    Student.addCourse Scenario.oneEnrolled "A" 1 =
        (AddCourseOutcome.alreadyEnrolled, Scenario.oneEnrolled) ∧
      (Student.addCourse Scenario.oneEnrolled "B" 1).2.enrollments.Nodup :=
  have h := addCourse_duplicate_rejected Scenario.oneEnrolled "A" 1
    ⟨1, "CS101", "Programming", "Fay F", "Monday", "09:00:00", "10:00:00", "101", "Main", 10⟩
    (by decide) (by decide) (by decide)
  ⟨h.1, h.2 "B" 1 (by decide)⟩

/-- C10. Enroll success effect: when the session and its course exist, the
pair is not enrolled, the student holds no enrollment at the session's timeslot
id and the session has a free seat, `Database::addEnrollment` returns true and
`Student::addCourse` on an offering of that session reports success; the new
store is the old one with the single row (studentId, scheduleId) added to
`enrollments` and every other table unchanged. -/
theorem enroll_success (st : Store) (studentId : String) (schedule_id : Int)
    (cs : ScheduleRow) (c : CourseRow)
    (hcs : st.course_schedule.find? (fun x => x.schedule_id == schedule_id) = some cs)
    (hc : st.courses.find? (fun x => x.course_code == cs.course_code) = some c)
    (hnew : (⟨studentId, schedule_id⟩ : EnrollmentRow) ∉ st.enrollments)
    (hfree : ¬ HoldsTimeslot st studentId cs.timeslot_id)
    (hcap : Database.enrolledCount st schedule_id < c.max_students) :
    Database.addEnrollment st studentId schedule_id =
        (true, { st with enrollments := st.enrollments ++ [⟨studentId, schedule_id⟩] }) ∧
      ∀ (cidx : Int) (sc : Database.ScheduledCourse), 1 ≤ cidx →
        (candidates st studentId)[(cidx - 1).toNat]? = some sc →
        sc.schedule_id = schedule_id → sc.timeslot_id = cs.timeslot_id →
        Student.addCourse st studentId cidx =
          (AddCourseOutcome.enrolled,
            { st with enrollments := st.enrollments ++ [⟨studentId, schedule_id⟩] }) := by
  have hadd : Database.addEnrollment st studentId schedule_id =
      (true, withEnrollment st studentId schedule_id) := by
    rw [addEnrollment_of_resolved st studentId schedule_id cs c hcs hc, if_neg (by omega)]
  refine ⟨hadd, ?_⟩
  intro cidx sc hsel hsc hid hts
  have h1 : ¬ Database.isAlreadyEnrolled st studentId sc.schedule_id = true := by
    rw [hid]
    exact fun h => hnew ((isAlreadyEnrolled_iff st studentId schedule_id).mp h)
  have h2 : ¬ Database.hasClash st studentId sc.timeslot_id = true := by
    rw [hts]
    exact fun h => hfree ((hasClash_iff st studentId cs.timeslot_id).mp h)
  rw [addCourse_of_selected st studentId cidx sc hsel hsc, if_neg h1, if_neg h2, hid, hadd]
  rfl

theorem enroll_success_witness :
    Database.addEnrollment Scenario.oneEnrolled "B" 1 = (true, Scenario.full) ∧
      Student.addCourse Scenario.oneEnrolled "B" 1 =
        (AddCourseOutcome.enrolled, Scenario.full) :=
  have h := enroll_success Scenario.oneEnrolled "B" 1
    ⟨1, "CS101", 5, 10, "R1"⟩ ⟨"CS101", "Programming", 3, 1, "BSCS", 2, ""⟩
    (by decide) (by decide) (by decide)
    (fun hh => absurd ((hasClash_iff Scenario.oneEnrolled "B" 10).mpr hh) (by decide))
    (by decide)
  ⟨h.1,
   h.2 1 ⟨1, "CS101", "Programming", "Fay F", "Monday", "09:00:00", "10:00:00", "101", "Main", 10⟩
     (by decide) (by decide) rfl rfl⟩

/-- C8, as stated, fails: student A holds an enrollment in session 1 at
timeslot 10, session 2 is at timeslot 10 as well, and
`Database::addEnrollment("A", 2)` returns true and inserts the row. -/
theorem addEnrollment_clash_counterexample :
    (∃ cs, Scenario.oneEnrolled.course_schedule.find? (fun x => x.schedule_id == 2) = some cs ∧
        HoldsTimeslot Scenario.oneEnrolled "A" cs.timeslot_id) ∧
      Database.addEnrollment Scenario.oneEnrolled "A" 2 =
        (true, Scenario.withEnrollments [⟨"A", 1⟩, ⟨"A", 2⟩]) ∧
      Database.addEnrollment Scenario.oneEnrolled "A" 2 ≠ (false, Scenario.oneEnrolled) :=
  ⟨⟨⟨2, "MA101", 6, 10, "R2"⟩, by decide,
      (hasClash_iff Scenario.oneEnrolled "A" 10).mp (by decide)⟩,
   by decide, by decide⟩

/-- C8 (amended). `Database::addEnrollment` re-validates existence and
capacity, not the clash: for a pair that is not yet enrolled, whose session
exists and whose student already holds an enrollment at the session's timeslot
id, it returns true and inserts the row exactly when the course row exists and
the session has a free seat, and returns false and inserts nothing exactly when
not; the row is then the only row of the pair, and the student holds two
enrollments at one timeslot id. -/
theorem addEnrollment_checks_capacity_only (st : Store) (studentId : String)
    (schedule_id : Int) (cs : ScheduleRow)
    (hcs : st.course_schedule.find? (fun x => x.schedule_id == schedule_id) = some cs)
    (hclash : HoldsTimeslot st studentId cs.timeslot_id)
    (hnew : (⟨studentId, schedule_id⟩ : EnrollmentRow) ∉ st.enrollments) :
    (Database.addEnrollment st studentId schedule_id =
        (true, { st with enrollments := st.enrollments ++ [⟨studentId, schedule_id⟩] }) ↔
      ∃ c, st.courses.find? (fun x => x.course_code == cs.course_code) = some c ∧
        Database.enrolledCount st schedule_id < c.max_students) ∧
    (Database.addEnrollment st studentId schedule_id = (false, st) ↔
      ¬ ∃ c, st.courses.find? (fun x => x.course_code == cs.course_code) = some c ∧
        Database.enrolledCount st schedule_id < c.max_students) ∧
    ((Database.addEnrollment st studentId schedule_id).2.enrollments.count
        ⟨studentId, schedule_id⟩ =
      if (Database.addEnrollment st studentId schedule_id).1 then 1 else 0) ∧
    ((∃ c, st.courses.find? (fun x => x.course_code == cs.course_code) = some c ∧
        Database.enrolledCount st schedule_id < c.max_students) →
      ¬ NoStudentClash (Database.addEnrollment st studentId schedule_id).2) := by
  have hcount0 : st.enrollments.count ⟨studentId, schedule_id⟩ = 0 :=
    List.count_eq_zero.mpr hnew
  have hcount1 : (withEnrollment st studentId schedule_id).enrollments.count
      ⟨studentId, schedule_id⟩ = 1 := by
    simp only [withEnrollment, List.count_append, hcount0]
    simp
  have hbreak : ¬ NoStudentClash (withEnrollment st studentId schedule_id) := by
    intro hno
    obtain ⟨e, he, hstudent, c1, hc1, hid1, hts1⟩ := hclash
    simp only [NoStudentClash, withEnrollment] at hno
    rw [List.pairwise_append] at hno
    have hid : cs.schedule_id = schedule_id := by simpa using List.find?_some hcs
    exact hno.2.2 e he ⟨studentId, schedule_id⟩ (List.mem_singleton.mpr rfl) hstudent
      c1 hc1 cs (List.mem_of_find?_eq_some hcs) hid1 hid hts1
  cases hc : st.courses.find? (fun x => x.course_code == cs.course_code) with
  | none =>
    have hadd : Database.addEnrollment st studentId schedule_id = (false, st) := by
      simp [Database.addEnrollment, hcs, hc]
    rw [hadd]
    simp [hcount0]
  | some c =>
    rw [addEnrollment_of_resolved st studentId schedule_id cs c hcs hc]
    by_cases hfull : Database.enrolledCount st schedule_id ≥ c.max_students
    · rw [if_pos hfull]
      refine ⟨?_, ?_, ?_, ?_⟩
      · simp
        omega
      · simp
        omega
      · simp [hcount0]
      · rintro ⟨c2, hc2, hlt⟩
        have : c2 = c := Option.some.inj hc2.symm
        subst this
        omega
    · rw [if_neg hfull]
      refine ⟨?_, ?_, ?_, ?_⟩
      · simp [withEnrollment]
        omega
      · simp [withEnrollment]
        omega
      · simp only [if_true]
        exact hcount1
      · intro _
        exact hbreak

theorem addEnrollment_checks_capacity_only_witness :
    Database.addEnrollment Scenario.oneEnrolled "A" 2 =
        (true, Scenario.withEnrollments [⟨"A", 1⟩, ⟨"A", 2⟩]) ∧
      ¬ NoStudentClash (Database.addEnrollment Scenario.oneEnrolled "A" 2).2 :=
  have h := addEnrollment_checks_capacity_only Scenario.oneEnrolled "A" 2
    ⟨2, "MA101", 6, 10, "R2"⟩ (by decide)
    ((hasClash_iff Scenario.oneEnrolled "A" 10).mp (by decide)) (by decide)
  ⟨h.1.mpr ⟨⟨"MA101", "Calculus", 3, 1, "BSCS", 5, ""⟩, by decide, by decide⟩,
   h.2.2.2 ⟨⟨"MA101", "Calculus", 3, 1, "BSCS", 5, ""⟩, by decide, by decide⟩⟩

/-! ## The offering allocator -/

theorem assignCourseSchedule_store (st : Store) (new_id c t f r : Int) :
    (Admin.assignCourseSchedule st new_id c t f r).2 = st ∨
      ∃ course ∈ Database.getUnscheduledCourses st,
      ∃ slot ∈ Database.getAllTimeslots st,
      ∃ fac ∈ Database.getAvailableFaculty st slot.1,
      ∃ room ∈ Database.getAvailableRooms st slot.1,
        Admin.assignCourseSchedule st new_id c t f r =
          (AssignOutcome.completed,
            Database.addCourseSchedule st new_id course.1 fac.1 slot.1 room.1) := by
  unfold Admin.assignCourseSchedule
  simp only []
  split_ifs
  · left; rfl
  · left; rfl
  · split
    · rename_i course slot hcourse hslot
      split_ifs
      · left; rfl
      · left; rfl
      · left; rfl
      · left; rfl
      · split
        · rename_i fac room hfac hroom
          right
          exact ⟨course, List.getElem?_mem hcourse, slot, List.getElem?_mem hslot,
            fac, List.getElem?_mem hfac, room, List.getElem?_mem hroom, rfl⟩
        · left; rfl
    · left; rfl

theorem getAvailableFaculty_free (st : Store) (t : Int) (fac : Int × String)
    (h : fac ∈ Database.getAvailableFaculty st t) :
    ∀ cs ∈ st.course_schedule, ¬ (cs.faculty_id = fac.1 ∧ cs.timeslot_id = t) := by
  simp only [Database.getAvailableFaculty, List.mem_map, List.mem_filter, Bool.not_eq_true',
    List.any_eq_false, beq_iff_eq, Bool.and_eq_true, decide_eq_true_eq] at h
  obtain ⟨row, ⟨-, hfree⟩, rfl⟩ := h
  intro cs hcs hboth
  exact hfree cs ⟨hcs, hboth.2⟩ hboth.1

theorem getAvailableRooms_free (st : Store) (t : Int) (room : String × String)
    (h : room ∈ Database.getAvailableRooms st t) :
    ∀ cs ∈ st.course_schedule, ¬ (cs.room_id = room.1 ∧ cs.timeslot_id = t) := by
  simp only [Database.getAvailableRooms, List.mem_map, List.mem_filter, Bool.not_eq_true',
    List.any_eq_false, beq_iff_eq, Bool.and_eq_true, decide_eq_true_eq] at h
  obtain ⟨row, ⟨-, hfree⟩, rfl⟩ := h
  intro cs hcs hboth
  exact hfree cs ⟨hcs, hboth.2⟩ hboth.1

theorem removeCourseSchedule_noDoubleBooking (st : Store) (s : Int) (h : NoDoubleBooking st) :
    NoDoubleBooking (Database.removeCourseSchedule st s) :=
  ⟨h.1.filter _, h.2.filter _⟩

theorem assignCourseSchedule_noDoubleBooking (st : Store) (new_id c t f r : Int)
    (h : NoDoubleBooking st) :
    NoDoubleBooking (Admin.assignCourseSchedule st new_id c t f r).2 := by
  rcases assignCourseSchedule_store st new_id c t f r with
    hsame | ⟨course, -, slot, -, fac, hfac, room, hroom, hnew⟩
  · rw [hsame]; exact h
  · rw [hnew]
    simp only [NoDoubleBooking, Database.addCourseSchedule]
    constructor
    · rw [List.pairwise_append]
      refine ⟨h.1, List.pairwise_singleton _ _, ?_⟩
      intro a ha b hb
      rw [List.mem_singleton] at hb
      subst hb
      exact getAvailableFaculty_free st slot.1 fac hfac a ha
    · rw [List.pairwise_append]
      refine ⟨h.2, List.pairwise_singleton _ _, ?_⟩
      intro a ha b hb
      rw [List.mem_singleton] at hb
      subst hb
      exact getAvailableRooms_free st slot.1 room hroom a ha

/-- C2. No double booking: from a store in which no two sessions share
(faculty_id, timeslot_id) and no two share (room_id, timeslot_id), every finite
sequence of `Admin::assignCourseSchedule` runs and
`Database::removeCourseSchedule` calls leads to a store with the same
property. -/
theorem no_double_booking (st : Store) (ops : List ScheduleOp) (h : NoDoubleBooking st) :
    NoDoubleBooking (runSchedule st ops) := by
  induction ops generalizing st with
  | nil => exact h
  | cons op ops ih =>
    simp only [runSchedule, List.foldl_cons]
    apply ih
    cases op with
    | allocate new_id c t f r => exact assignCourseSchedule_noDoubleBooking st new_id c t f r h
    | deallocate s => exact removeCourseSchedule_noDoubleBooking st s h

theorem no_double_booking_witness :
    NoDoubleBooking Scenario.empty ∧
      NoDoubleBooking
        (runSchedule Scenario.empty [.deallocate 2, .allocate 3 1 2 1 1, .allocate 4 1 2 1 1]) :=
  ⟨by unfold NoDoubleBooking; decide,
   no_double_booking Scenario.empty _ (by unfold NoDoubleBooking; decide)⟩

/-! ## Student timeslot clashes -/

theorem candidates_session (st : Store) (id : String) (sc : Database.ScheduledCourse)
    (h : sc ∈ candidates st id) :
    ∃ cs ∈ st.course_schedule,
      cs.schedule_id = sc.schedule_id ∧ cs.timeslot_id = sc.timeslot_id := by
  simp only [candidates, Database.getAvailableScheduledCourses, Database.scheduleJoin,
    List.mem_map, List.mem_filter, List.mem_flatMap] at h
  obtain ⟨row, ⟨⟨cs, hcs, c, -, f, -, t, -, cl, -, rfl⟩, -⟩, rfl⟩ := h
  exact ⟨cs, hcs, rfl, rfl⟩

theorem scheduleKey_eq (st : Store) (h : ScheduleKey st) (a b : ScheduleRow)
    (ha : a ∈ st.course_schedule) (hb : b ∈ st.course_schedule)
    (hid : a.schedule_id = b.schedule_id) : a = b :=
  List.inj_on_of_nodup_map h ha hb hid

theorem removeCourseSchedule_scheduleKey (st : Store) (s : Int) (h : ScheduleKey st) :
    ScheduleKey (Database.removeCourseSchedule st s) := by
  simp only [ScheduleKey, Database.removeCourseSchedule]
  exact List.Nodup.sublist ((List.filter_sublist _).map _) h

theorem removeCourseSchedule_noStudentClash (st : Store) (s : Int) (h : NoStudentClash st) :
    NoStudentClash (Database.removeCourseSchedule st s) := by
  simp only [NoStudentClash, Database.removeCourseSchedule]
  refine List.Pairwise.imp ?_ (List.Pairwise.filter _ h)
  intro e1 e2 hR hsame c1 hc1 c2 hc2 h1 h2
  exact hR hsame c1 (List.mem_of_mem_filter hc1) c2 (List.mem_of_mem_filter hc2) h1 h2

theorem dropEnrollment_noStudentClash (st : Store) (studentId : String) (s : Int)
    (h : NoStudentClash st) :
    NoStudentClash (Database.dropEnrollment st studentId s).2 := by
  simp only [NoStudentClash, Database.dropEnrollment]
  exact List.Pairwise.filter _ h

theorem addCourse_noStudentClash (st : Store) (id : String) (cidx : Int)
    (hkey : ScheduleKey st) (h : NoStudentClash st) :
    NoStudentClash (Student.addCourse st id cidx).2 := by
  rcases addCourse_store st id cidx with hsame | ⟨sc, hsc, -, hclash, hnew⟩
  · rw [hsame]; exact h
  · rw [hnew]
    obtain ⟨cs0, hcs0, hid0, hts0⟩ := candidates_session st id sc hsc
    have hfree : ¬ HoldsTimeslot st id sc.timeslot_id := by
      intro hh
      rw [(hasClash_iff st id sc.timeslot_id).mpr hh] at hclash
      exact Bool.noConfusion hclash
    simp only [NoStudentClash, withEnrollment]
    rw [List.pairwise_append]
    refine ⟨h, List.pairwise_singleton _ _, ?_⟩
    intro e he b hb
    rw [List.mem_singleton] at hb
    subst hb
    intro hstudent c1 hc1 c2 hc2 h1 h2 hts
    have hc2eq : c2 = cs0 := scheduleKey_eq st hkey c2 cs0 hc2 hcs0 (h2.trans hid0.symm)
    apply hfree
    refine ⟨e, he, hstudent, c1, hc1, h1, ?_⟩
    rw [hts, hc2eq, hts0]

theorem addCourse_course_schedule (st : Store) (id : String) (cidx : Int) :
    (Student.addCourse st id cidx).2.course_schedule = st.course_schedule := by
  rcases addCourse_store st id cidx with hsame | ⟨sc, -, -, -, hnew⟩
  · rw [hsame]
  · rw [hnew]; rfl

/-- C3. No student clash: from a store in which no student holds two
enrollments whose sessions share a timeslot id (`schedule_id` being the key of
`course_schedule`), every finite sequence of `Student::addCourse` runs,
`Database::dropEnrollment` calls and `Database::removeCourseSchedule` calls
leads to a store with the same property. -/
theorem no_student_clash (st : Store) (ops : List EnrollOp) (hkey : ScheduleKey st)
    (h : NoStudentClash st) :
    NoStudentClash (runEnroll st ops) := by
  induction ops generalizing st with
  | nil => exact h
  | cons op ops ih =>
    simp only [runEnroll, List.foldl_cons]
    cases op with
    | enroll id cidx =>
      apply ih
      · simp only [EnrollOp.apply, ScheduleKey, addCourse_course_schedule]
        exact hkey
      · exact addCourse_noStudentClash st id cidx hkey h
    | drop id s =>
      apply ih
      · exact hkey
      · exact dropEnrollment_noStudentClash st id s h
    | deallocate s =>
      apply ih
      · exact removeCourseSchedule_scheduleKey st s hkey
      · exact removeCourseSchedule_noStudentClash st s h

theorem no_student_clash_witness :
    ScheduleKey Scenario.oneEnrolled ∧ NoStudentClash Scenario.oneEnrolled ∧
      NoStudentClash
        (runEnroll Scenario.oneEnrolled
          [.enroll "A" 2, .enroll "B" 2, .drop "A" 1, .enroll "A" 2, .deallocate 2]) :=
  ⟨by unfold ScheduleKey; decide, by unfold NoStudentClash; decide,
   no_student_clash Scenario.oneEnrolled _ (by unfold ScheduleKey; decide)
     (by unfold NoStudentClash; decide)⟩

/-! ## Database::dropEnrollment -/

theorem pair_match_iff (e : EnrollmentRow) (studentId : String) (schedule_id : Int) :
    (e.student_id == studentId && e.schedule_id == schedule_id) = true ↔
      e = ⟨studentId, schedule_id⟩ := by
  cases e
  simp

theorem dropEnrollment_fst (st : Store) (studentId : String) (schedule_id : Int) :
    (Database.dropEnrollment st studentId schedule_id).1 = true ↔
      (⟨studentId, schedule_id⟩ : EnrollmentRow) ∈ st.enrollments := by
  simp only [Database.dropEnrollment, decide_eq_true_eq, gt_iff_lt,
    List.length_pos_iff_exists_mem, List.mem_filter, pair_match_iff]
  constructor
  · rintro ⟨e, he, rfl⟩; exact he
  · intro h; exact ⟨_, h, rfl⟩

theorem dropEnrollment_snd (st : Store) (studentId : String) (schedule_id : Int) :
    (Database.dropEnrollment st studentId schedule_id).2 =
      { st with enrollments :=
          st.enrollments.filter (fun e => decide (e ≠ ⟨studentId, schedule_id⟩)) } := by
  simp only [Database.dropEnrollment]
  congr 1
  apply List.filter_congr
  intro e _
  by_cases h : e = ⟨studentId, schedule_id⟩
  · simp [h]
  · have hm : ¬ (e.student_id == studentId && e.schedule_id == schedule_id) = true :=
      fun hh => h ((pair_match_iff e studentId schedule_id).mp hh)
    simp only [Bool.not_eq_true] at hm
    simp [h, hm]

/-- C11. Idempotent drop: when (studentId, scheduleId) is enrolled exactly
once, the first `Database::dropEnrollment` returns true and a second call
returns false and changes nothing; and on every store `dropEnrollment` returns
true if and only if a matching row existed before the call. -/
theorem dropEnrollment_idempotent (st : Store) (studentId : String) (schedule_id : Int)
    (h : st.enrollments.count ⟨studentId, schedule_id⟩ = 1) :
    (Database.dropEnrollment st studentId schedule_id).1 = true ∧
      Database.dropEnrollment (Database.dropEnrollment st studentId schedule_id).2
          studentId schedule_id =
        (false, (Database.dropEnrollment st studentId schedule_id).2) ∧
      ∀ (st2 : Store) (id2 : String) (s2 : Int),
        (Database.dropEnrollment st2 id2 s2).1 = true ↔
          (⟨id2, s2⟩ : EnrollmentRow) ∈ st2.enrollments := by
  refine ⟨?_, ?_, dropEnrollment_fst⟩
  · rw [dropEnrollment_fst]
    exact List.count_pos_iff.mp (by omega)
  · have hgone : (⟨studentId, schedule_id⟩ : EnrollmentRow) ∉
        (Database.dropEnrollment st studentId schedule_id).2.enrollments := by
      rw [dropEnrollment_snd]
      simp [List.mem_filter]
    have hfst : (Database.dropEnrollment (Database.dropEnrollment st studentId schedule_id).2
        studentId schedule_id).1 = false := by
      rw [← Bool.not_eq_true, dropEnrollment_fst]
      exact hgone
    have hsnd : (Database.dropEnrollment (Database.dropEnrollment st studentId schedule_id).2
        studentId schedule_id).2 = (Database.dropEnrollment st studentId schedule_id).2 := by
      rw [dropEnrollment_snd (Database.dropEnrollment st studentId schedule_id).2]
      have hall : (Database.dropEnrollment st studentId schedule_id).2.enrollments.filter
          (fun e => decide (e ≠ ⟨studentId, schedule_id⟩)) =
          (Database.dropEnrollment st studentId schedule_id).2.enrollments := by
        rw [List.filter_eq_self]
        intro e he
        simp only [ne_eq, decide_eq_true_eq]
        intro heq
        exact hgone (heq ▸ he)
      rw [hall]
    exact Prod.ext hfst hsnd

theorem dropEnrollment_idempotent_witness :
    (Database.dropEnrollment Scenario.full "A" 1).1 = true ∧
      Database.dropEnrollment (Database.dropEnrollment Scenario.full "A" 1).2 "A" 1 =
        (false, Scenario.withEnrollments [⟨"B", 1⟩]) :=
  have h := dropEnrollment_idempotent Scenario.full "A" 1 (by decide)
  ⟨h.1, h.2.1⟩

/-- C12. Drop has no cascading effects: `Database::dropEnrollment` removes the
enrollment rows equal to (studentId, scheduleId), keeps every other enrollment
row, and leaves `marks`, `course_schedule`, `courses`, `faculty`, `timeslots`,
`classrooms` and `students` unchanged. -/
theorem dropEnrollment_frame (st : Store) (studentId : String) (schedule_id : Int) :
    (Database.dropEnrollment st studentId schedule_id).2.enrollments =
        st.enrollments.filter (fun e => decide (e ≠ ⟨studentId, schedule_id⟩)) ∧
      (Database.dropEnrollment st studentId schedule_id).2.marks = st.marks ∧
      (Database.dropEnrollment st studentId schedule_id).2.course_schedule =
        st.course_schedule ∧
      (Database.dropEnrollment st studentId schedule_id).2.courses = st.courses ∧
      (Database.dropEnrollment st studentId schedule_id).2.faculty = st.faculty ∧
      (Database.dropEnrollment st studentId schedule_id).2.timeslots = st.timeslots ∧
      (Database.dropEnrollment st studentId schedule_id).2.classrooms = st.classrooms ∧
      (Database.dropEnrollment st studentId schedule_id).2.students = st.students := by
  rw [dropEnrollment_snd]
  exact ⟨rfl, rfl, rfl, rfl, rfl, rfl, rfl, rfl⟩

/-! ## Unscheduled courses and one session per course -/

theorem getUnscheduledCourses_eq (st : Store) :
    Database.getUnscheduledCourses st =
      (st.courses.filter (fun c =>
        decide (∀ cs ∈ st.course_schedule, cs.course_code ≠ c.course_code))).map
        (fun c => (c.course_code, c.course_name)) := by
  simp only [Database.getUnscheduledCourses]
  congr 1
  apply List.filter_congr
  intro c _
  by_cases h : ∀ cs ∈ st.course_schedule, cs.course_code ≠ c.course_code
  · have : st.course_schedule.any (fun cs => cs.course_code == c.course_code) = false := by
      rw [List.any_eq_false]
      intro cs hcs
      simpa using h cs hcs
    rw [this]
    simpa using h
  · have : st.course_schedule.any (fun cs => cs.course_code == c.course_code) = true := by
      rw [List.any_eq_true]
      push_neg at h
      obtain ⟨cs, hcs, heq⟩ := h
      exact ⟨cs, hcs, by simpa using heq⟩
    simp [h, this]

theorem getUnscheduledCourses_free (st : Store) (course : String × String)
    (h : course ∈ Database.getUnscheduledCourses st) :
    ∀ cs ∈ st.course_schedule, cs.course_code ≠ course.1 := by
  rw [getUnscheduledCourses_eq] at h
  simp only [List.mem_map, List.mem_filter, decide_eq_true_eq] at h
  obtain ⟨c, ⟨-, hfree⟩, rfl⟩ := h
  exact hfree

theorem mem_getUnscheduledCourses (st : Store) (c : CourseRow) (hc : c ∈ st.courses) :
    (c.course_code, c.course_name) ∈ Database.getUnscheduledCourses st ↔
      ∀ cs ∈ st.course_schedule, cs.course_code ≠ c.course_code := by
  constructor
  · exact getUnscheduledCourses_free st (c.course_code, c.course_name)
  · intro h
    rw [getUnscheduledCourses_eq]
    simp only [List.mem_map, List.mem_filter, decide_eq_true_eq]
    exact ⟨c, ⟨hc, h⟩, rfl⟩

theorem assignCourseSchedule_cases (st : Store) (new_id c t f r : Int) :
    ((Admin.assignCourseSchedule st new_id c t f r).1 ≠ AssignOutcome.completed ∧
        (Admin.assignCourseSchedule st new_id c t f r).2 = st) ∨
      ∃ course ∈ Database.getUnscheduledCourses st,
      ∃ slot ∈ Database.getAllTimeslots st,
      ∃ fac ∈ Database.getAvailableFaculty st slot.1,
      ∃ room ∈ Database.getAvailableRooms st slot.1,
        Admin.assignCourseSchedule st new_id c t f r =
          (AssignOutcome.completed,
            Database.addCourseSchedule st new_id course.1 fac.1 slot.1 room.1) := by
  unfold Admin.assignCourseSchedule
  simp only []
  split_ifs
  · left; exact ⟨by simp, rfl⟩
  · left; exact ⟨by simp, rfl⟩
  · split
    · rename_i course slot hcourse hslot
      split_ifs
      · left; exact ⟨by simp, rfl⟩
      · left; exact ⟨by simp, rfl⟩
      · left; exact ⟨by simp, rfl⟩
      · left; exact ⟨by simp, rfl⟩
      · split
        · rename_i fac room hfac hroom
          right
          exact ⟨course, List.getElem?_mem hcourse, slot, List.getElem?_mem hslot,
            fac, List.getElem?_mem hfac, room, List.getElem?_mem hroom, rfl⟩
        · left; exact ⟨by simp, rfl⟩
    · left; exact ⟨by simp, rfl⟩

/-- C20. Unscheduled courses: `Database::getUnscheduledCourses` returns exactly
the (code, name) of the courses whose code is in no `course_schedule` row; a
course is listed if and only if it has no session; the course of a completed
`Admin::assignCourseSchedule` was listed before and is not listed afterwards;
and after `Database::removeCourseSchedule` of its only session a course is
listed again. -/
theorem getUnscheduledCourses_spec (st : Store) :
    Database.getUnscheduledCourses st =
        (st.courses.filter (fun c =>
          decide (∀ cs ∈ st.course_schedule, cs.course_code ≠ c.course_code))).map
          (fun c => (c.course_code, c.course_name)) ∧
      (∀ c ∈ st.courses,
        (c.course_code, c.course_name) ∈ Database.getUnscheduledCourses st ↔
          ∀ cs ∈ st.course_schedule, cs.course_code ≠ c.course_code) ∧
      (∀ new_id c t f r : Int,
        (Admin.assignCourseSchedule st new_id c t f r).1 = AssignOutcome.completed →
        ∃ row : ScheduleRow,
          (Admin.assignCourseSchedule st new_id c t f r).2.course_schedule =
            st.course_schedule ++ [row] ∧
          (∃ name, (row.course_code, name) ∈ Database.getUnscheduledCourses st) ∧
          ∀ p ∈ Database.getUnscheduledCourses (Admin.assignCourseSchedule st new_id c t f r).2,
            p.1 ≠ row.course_code) ∧
      (∀ c ∈ st.courses, ∀ s : Int,
        (∀ cs ∈ st.course_schedule, cs.course_code = c.course_code → cs.schedule_id = s) →
        (c.course_code, c.course_name) ∈
          Database.getUnscheduledCourses (Database.removeCourseSchedule st s)) := by
  refine ⟨getUnscheduledCourses_eq st, mem_getUnscheduledCourses st, ?_, ?_⟩
  · intro new_id c t f r hdone
    rcases assignCourseSchedule_cases st new_id c t f r with
      ⟨hne, -⟩ | ⟨course, hcourse, slot, -, fac, -, room, -, hnew⟩
    · exact absurd hdone hne
    · rw [hnew]
      refine ⟨⟨new_id, course.1, fac.1, slot.1, room.1⟩, rfl, ⟨course.2, hcourse⟩, ?_⟩
      intro p hp
      have := getUnscheduledCourses_free _ p hp
        ⟨new_id, course.1, fac.1, slot.1, room.1⟩
        (by simp [Database.addCourseSchedule])
      exact fun h => this h.symm
  · intro c hc s honly
    have hc2 : c ∈ (Database.removeCourseSchedule st s).courses := hc
    rw [mem_getUnscheduledCourses _ c hc2]
    intro cs hcs heq
    simp only [Database.removeCourseSchedule, List.mem_filter, Bool.not_eq_true',
      beq_eq_false_iff_ne, ne_eq] at hcs
    exact hcs.2 (honly cs hcs.1 heq)

theorem removeCourseSchedule_oneSessionPerCourse (st : Store) (s : Int)
    (h : OneSessionPerCourse st) :
    OneSessionPerCourse (Database.removeCourseSchedule st s) :=
  List.Pairwise.filter _ h

theorem assignCourseSchedule_oneSessionPerCourse (st : Store) (new_id c t f r : Int)
    (h : OneSessionPerCourse st) :
    OneSessionPerCourse (Admin.assignCourseSchedule st new_id c t f r).2 := by
  rcases assignCourseSchedule_cases st new_id c t f r with
    ⟨-, hsame⟩ | ⟨course, hcourse, slot, -, fac, -, room, -, hnew⟩
  · rw [hsame]; exact h
  · rw [hnew]
    simp only [OneSessionPerCourse, Database.addCourseSchedule]
    rw [List.pairwise_append]
    refine ⟨h, List.pairwise_singleton _ _, ?_⟩
    intro a ha b hb
    rw [List.mem_singleton] at hb
    subst hb
    exact getUnscheduledCourses_free st course hcourse a ha

/-- C14. At most one session per course: from a store in which no two
`course_schedule` rows share a course code, every finite sequence of
`Admin::assignCourseSchedule` runs and `Database::removeCourseSchedule` calls
leads to a store with the same property. -/
theorem one_session_per_course (st : Store) (ops : List ScheduleOp)
    (h : OneSessionPerCourse st) :
    OneSessionPerCourse (runSchedule st ops) := by
  induction ops generalizing st with
  | nil => exact h
  | cons op ops ih =>
    simp only [runSchedule, List.foldl_cons]
    apply ih
    cases op with
    | allocate new_id c t f r =>
      exact assignCourseSchedule_oneSessionPerCourse st new_id c t f r h
    | deallocate s => exact removeCourseSchedule_oneSessionPerCourse st s h

theorem one_session_per_course_witness :
    OneSessionPerCourse Scenario.empty ∧
      OneSessionPerCourse
        (runSchedule Scenario.empty
          [.allocate 3 1 2 1 1, .deallocate 1, .allocate 4 1 2 1 1, .allocate 5 1 2 2 2]) :=
  ⟨by unfold OneSessionPerCourse; decide,
   one_session_per_course Scenario.empty _ (by unfold OneSessionPerCourse; decide)⟩

/-! ## Allocation and removal through the Admin front-end -/

/-- C13, as stated, fails: `CS101` already has session 1, held by faculty 5 in
room `R1` at timeslot 10, and `Database::addCourseSchedule("CS101", 5, 10,
"R1")` inserts a second session with the same course, faculty member, room and
timeslot. -/
theorem addCourseSchedule_conflict_counterexample :
    (∃ cs ∈ Scenario.oneSession.course_schedule,
        cs.course_code = "CS101" ∧ cs.faculty_id = 5 ∧ cs.timeslot_id = 10 ∧
          cs.room_id = "R1") ∧
      (Database.addCourseSchedule Scenario.oneSession 3 "CS101" 5 10 "R1").course_schedule =
        [⟨1, "CS101", 5, 10, "R1"⟩, ⟨3, "CS101", 5, 10, "R1"⟩] :=
  ⟨⟨⟨1, "CS101", 5, 10, "R1"⟩, by decide, rfl, rfl, rfl, rfl⟩, by decide⟩

/-- C13 (amended). The preconditions of allocate are checked by
`Admin::assignCourseSchedule`, on the store it reads in the same run: when the
run completes, the inserted session has a course with no session, a faculty
member not bound at the chosen timeslot and a room not bound at the chosen
timeslot. `Database::addCourseSchedule` makes no check: for any arguments it
inserts exactly one row. -/
theorem assignCourseSchedule_revalidates (st : Store) (new_id c t f r : Int)
    (h : (Admin.assignCourseSchedule st new_id c t f r).1 = AssignOutcome.completed) :
    (∃ row : ScheduleRow,
      (Admin.assignCourseSchedule st new_id c t f r).2 =
          Database.addCourseSchedule st new_id row.course_code row.faculty_id
            row.timeslot_id row.room_id ∧
        row.schedule_id = new_id ∧
        (∀ cs ∈ st.course_schedule, cs.course_code ≠ row.course_code) ∧
        (∀ cs ∈ st.course_schedule,
          ¬ (cs.faculty_id = row.faculty_id ∧ cs.timeslot_id = row.timeslot_id)) ∧
        (∀ cs ∈ st.course_schedule,
          ¬ (cs.room_id = row.room_id ∧ cs.timeslot_id = row.timeslot_id))) ∧
      ∀ (code : String) (fid tid : Int) (rid : String),
        Database.addCourseSchedule st new_id code fid tid rid =
          { st with course_schedule := st.course_schedule ++ [⟨new_id, code, fid, tid, rid⟩] } := by
  refine ⟨?_, fun _ _ _ _ => rfl⟩
  rcases assignCourseSchedule_cases st new_id c t f r with
    ⟨hne, -⟩ | ⟨course, hcourse, slot, -, fac, hfac, room, hroom, hnew⟩
  · exact absurd h hne
  · rw [hnew]
    exact ⟨⟨new_id, course.1, fac.1, slot.1, room.1⟩, rfl, rfl,
      getUnscheduledCourses_free st course hcourse,
      getAvailableFaculty_free st slot.1 fac hfac,
      getAvailableRooms_free st slot.1 room hroom⟩

theorem assignCourseSchedule_revalidates_witness :
    Admin.assignCourseSchedule Scenario.oneSession 3 1 2 1 1 =
        (AssignOutcome.completed,
          Database.addCourseSchedule Scenario.oneSession 3 "MA101" 5 11 "R1") ∧
      ∃ row : ScheduleRow,
        (Admin.assignCourseSchedule Scenario.oneSession 3 1 2 1 1).2 =
            Database.addCourseSchedule Scenario.oneSession 3 row.course_code row.faculty_id
              row.timeslot_id row.room_id ∧
          row.schedule_id = 3 ∧
          (∀ cs ∈ Scenario.oneSession.course_schedule, cs.course_code ≠ row.course_code) ∧
          (∀ cs ∈ Scenario.oneSession.course_schedule,
            ¬ (cs.faculty_id = row.faculty_id ∧ cs.timeslot_id = row.timeslot_id)) ∧
          (∀ cs ∈ Scenario.oneSession.course_schedule,
            ¬ (cs.room_id = row.room_id ∧ cs.timeslot_id = row.timeslot_id)) :=
  ⟨by decide, (assignCourseSchedule_revalidates Scenario.oneSession 3 1 2 1 1 (by decide)).1⟩

theorem removeCourseAssignment_cases (st : Store) (idx : Int) :
    ((Admin.removeCourseAssignment st idx).1 ≠ RemoveOutcome.removed ∧
        (Admin.removeCourseAssignment st idx).2 = st) ∨
      ∃ cs ∈ st.course_schedule,
        Admin.removeCourseAssignment st idx =
          (RemoveOutcome.removed, Database.removeCourseSchedule st cs.schedule_id) := by
  unfold Admin.removeCourseAssignment
  simp only []
  split_ifs
  · left; exact ⟨by simp, rfl⟩
  · left; exact ⟨by simp, rfl⟩
  · split
    · left; exact ⟨by simp, rfl⟩
    · rename_i a ha
      right
      have hmem := List.getElem?_mem ha
      simp only [Database.getAllCourseSchedules, Database.scheduleJoin, List.mem_map,
        List.mem_flatMap] at hmem
      obtain ⟨row, ⟨cs, hcs, c, -, fc, -, tm, -, cl, -, rfl⟩, rfl⟩ := hmem
      exact ⟨cs, hcs, rfl⟩

/-- C15, as stated, fails: no session has schedule id 7, and
`Database::removeCourseSchedule(7)` completes and returns the store unchanged;
a second removal of session 1 completes in the same way. -/
theorem removeCourseSchedule_missing_counterexample :
    (∀ cs ∈ Scenario.oneEnrolled.course_schedule, cs.schedule_id ≠ 7) ∧
      Database.removeCourseSchedule Scenario.oneEnrolled 7 = Scenario.oneEnrolled ∧
      Database.removeCourseSchedule (Database.removeCourseSchedule Scenario.oneEnrolled 1) 1 =
        Database.removeCourseSchedule Scenario.oneEnrolled 1 :=
  ⟨by decide, by decide, by decide⟩

/-- C15 (amended). `Database::removeCourseSchedule` has no result and no
not-found case: for a schedule id with no session it completes, leaves
`course_schedule` and every other table but `enrollments` as they are, deletes
the enrollments that still name the id, and so leaves the whole store unchanged
when none does; a second removal of the same id changes nothing.
`Admin::removeCourseAssignment` reports a removal only for a session that it
read from `course_schedule` in the same run. -/
theorem removeCourseSchedule_missing_noop (st : Store) (s : Int)
    (h : ∀ cs ∈ st.course_schedule, cs.schedule_id ≠ s) :
    Database.removeCourseSchedule st s =
        { st with enrollments := st.enrollments.filter (fun e => decide (e.schedule_id ≠ s)) } ∧
      ((∀ e ∈ st.enrollments, e.schedule_id ≠ s) → Database.removeCourseSchedule st s = st) ∧
      Database.removeCourseSchedule (Database.removeCourseSchedule st s) s =
        Database.removeCourseSchedule st s ∧
      ∀ idx : Int, (Admin.removeCourseAssignment st idx).1 = RemoveOutcome.removed →
        ∃ cs ∈ st.course_schedule,
          (Admin.removeCourseAssignment st idx).2 =
            Database.removeCourseSchedule st cs.schedule_id := by
  have hcs : st.course_schedule.filter (fun cs => !(cs.schedule_id == s)) =
      st.course_schedule := by
    rw [List.filter_eq_self]
    intro cs hmem
    simpa using h cs hmem
  have hen : st.enrollments.filter (fun e => !(e.schedule_id == s)) =
      st.enrollments.filter (fun e => decide (e.schedule_id ≠ s)) := by
    apply List.filter_congr
    intro e _
    by_cases he : e.schedule_id = s <;> simp [he]
  refine ⟨?_, ?_, ?_, ?_⟩
  · simp only [Database.removeCourseSchedule, hcs, hen]
  · intro hnone
    have : st.enrollments.filter (fun e => !(e.schedule_id == s)) = st.enrollments := by
      rw [List.filter_eq_self]
      intro e hmem
      simpa using hnone e hmem
    simp only [Database.removeCourseSchedule, hcs, this]
  · simp only [Database.removeCourseSchedule, List.filter_filter, Bool.and_self]
  · intro idx hrem
    rcases removeCourseAssignment_cases st idx with ⟨hne, -⟩ | ⟨cs, hmem, heq⟩
    · exact absurd hrem hne
    · exact ⟨cs, hmem, by rw [heq]⟩

theorem removeCourseSchedule_missing_noop_witness :
    (∀ cs ∈ Scenario.oneEnrolled.course_schedule, cs.schedule_id ≠ 7) ∧
      Database.removeCourseSchedule Scenario.oneEnrolled 7 = Scenario.oneEnrolled :=
  ⟨by decide,
   (removeCourseSchedule_missing_noop Scenario.oneEnrolled 7 (by decide)).2.1 (by decide)⟩

/-! ## Database::addMarks -/

theorem markKey_match_iff (m : MarkRow) (code sid name : String) :
    (m.course_code == code && m.student_id == sid && m.assignment_name == name) = true ↔
      (m.course_code, m.student_id, m.assignment_name) = (code, sid, name) := by
  simp [and_assoc]

theorem filter_length_le_one_of_nodup_key {α κ : Type} (key : α → κ) (p : α → Bool) (k : κ)
    (hp : ∀ a, p a = true ↔ key a = k) (l : List α) (h : (l.map key).Nodup) :
    (l.filter p).length ≤ 1 := by
  induction l with
  | nil => simp
  | cons a l ih =>
    rw [List.map_cons, List.nodup_cons] at h
    by_cases ha : p a = true
    · have hnone : l.filter p = [] := by
        rw [List.filter_eq_nil_iff]
        intro m hm hmk
        apply h.1
        rw [List.mem_map]
        exact ⟨m, hm, by rw [(hp m).mp hmk, (hp a).mp ha]⟩
      simp [List.filter_cons, ha, hnone]
    · simpa [List.filter_cons, ha] using ih h.2

theorem filter_not_map_update {α : Type} (p : α → Bool) (g : α → α)
    (hg : ∀ a, p a = true → p (g a) = true) (l : List α) :
    (l.map (fun a => if p a then g a else a)).filter (fun a => !p a) =
      l.filter (fun a => !p a) := by
  induction l with
  | nil => rfl
  | cons a l ih =>
    by_cases ha : p a = true
    · simp [List.filter_cons, ha, hg a ha, ih]
    · simp [List.filter_cons, ha, ih]

theorem filter_map_update {α : Type} (p : α → Bool) (g : α → α)
    (hg : ∀ a, p a = true → p (g a) = true) (l : List α) :
    (l.map (fun a => if p a then g a else a)).filter p = (l.filter p).map g := by
  induction l with
  | nil => rfl
  | cons a l ih =>
    by_cases ha : p a = true
    · simp [List.filter_cons, ha, hg a ha, ih]
    · simp [List.filter_cons, ha, ih]

theorem addMarks_other_rows (st : Store) (code sid name : String) (t o : Int) :
    (Database.addMarks st code sid name t o).marks.filter (fun m =>
        !(m.course_code == code && m.student_id == sid && m.assignment_name == name)) =
      st.marks.filter (fun m =>
        !(m.course_code == code && m.student_id == sid && m.assignment_name == name)) := by
  unfold Database.addMarks
  split_ifs with hany
  · exact filter_not_map_update
      (fun m => m.course_code == code && m.student_id == sid && m.assignment_name == name)
      (fun m => { m with total_marks := t, obtained_marks := o }) (fun _ h => h) st.marks
  · simp [List.filter_append, List.filter_cons]

theorem addMarks_key_row (st : Store) (code sid name : String) (t o : Int)
    (hkey : MarksKey st) :
    (Database.addMarks st code sid name t o).marks.filter (fun m =>
        m.course_code == code && m.student_id == sid && m.assignment_name == name) =
      [⟨code, sid, name, t, o⟩] := by
  have hle := filter_length_le_one_of_nodup_key
    (fun m : MarkRow => (m.course_code, m.student_id, m.assignment_name))
    (fun m => m.course_code == code && m.student_id == sid && m.assignment_name == name)
    (code, sid, name) (fun m => markKey_match_iff m code sid name) st.marks hkey
  unfold Database.addMarks
  split_ifs with hany
  · rw [List.any_eq_true] at hany
    obtain ⟨m0, hm0, hk0⟩ := hany
    have hfm := filter_map_update
      (fun m : MarkRow =>
        m.course_code == code && m.student_id == sid && m.assignment_name == name)
      (fun m => { m with total_marks := t, obtained_marks := o }) (fun _ h => h) st.marks
    simp only [] at hfm ⊢
    rw [hfm]
    have hpos : 0 < (st.marks.filter (fun m =>
        m.course_code == code && m.student_id == sid && m.assignment_name == name)).length :=
      List.length_pos_of_mem (List.mem_filter.mpr ⟨hm0, hk0⟩)
    obtain ⟨x, hx⟩ := List.length_eq_one.mp (by omega :
      (st.marks.filter (fun m =>
        m.course_code == code && m.student_id == sid && m.assignment_name == name)).length = 1)
    have hxk : (x.course_code == code && x.student_id == sid && x.assignment_name == name) = true := by
      have : x ∈ st.marks.filter (fun m =>
          m.course_code == code && m.student_id == sid && m.assignment_name == name) := by
        rw [hx]; exact List.mem_singleton.mpr rfl
      exact (List.mem_filter.mp this).2
    have hk := (markKey_match_iff x code sid name).mp hxk
    simp only [Prod.mk.injEq] at hk
    rw [hx, List.map_cons, List.map_nil, hk.1, hk.2.1, hk.2.2]
  · have hnone : st.marks.filter (fun m =>
        m.course_code == code && m.student_id == sid && m.assignment_name == name) = [] := by
      rw [List.filter_eq_nil_iff]
      intro m hm hmk
      exact hany (List.any_eq_true.mpr ⟨m, hm, hmk⟩)
    simp [List.filter_append, hnone, List.filter_cons]

theorem addMarks_marksKey (st : Store) (code sid name : String) (t o : Int)
    (hkey : MarksKey st) :
    MarksKey (Database.addMarks st code sid name t o) := by
  unfold Database.addMarks
  split_ifs with hany
  · simp only [MarksKey, List.map_map]
    have : ((fun m : MarkRow => (m.course_code, m.student_id, m.assignment_name)) ∘
        (fun m : MarkRow =>
          if (m.course_code == code && m.student_id == sid && m.assignment_name == name) = true
          then ({ m with total_marks := t, obtained_marks := o } : MarkRow) else m)) =
        (fun m : MarkRow => (m.course_code, m.student_id, m.assignment_name)) := by
      funext m
      simp only [Function.comp]
      split_ifs <;> rfl
    rw [this]
    exact hkey
  · simp only [MarksKey, List.map_append, List.map_cons, List.map_nil]
    rw [List.nodup_append]
    refine ⟨hkey, List.nodup_singleton _, ?_⟩
    intro k hk hk2
    rw [List.mem_singleton] at hk2
    subst hk2
    rw [List.mem_map] at hk
    obtain ⟨m, hm, hmk⟩ := hk
    exact hany (List.any_eq_true.mpr ⟨m, hm, (markKey_match_iff m code sid name).mpr hmk⟩)

/-- C17. Mark upsert: on a store with at most one marks row per key, applying
`Database::addMarks(k, t1, o1)` and then `Database::addMarks(k, t2, o2)` leaves
exactly one marks row with key `k`, holding `t2` and `o2`; the rows with other
keys are the ones the store had, and the table still has one row per key. -/
theorem addMarks_upsert (st : Store) (code sid name : String) (t1 o1 t2 o2 : Int)
    (hkey : MarksKey st) :
    (Database.addMarks (Database.addMarks st code sid name t1 o1) code sid name t2 o2).marks.filter
        (fun m => m.course_code == code && m.student_id == sid && m.assignment_name == name) =
        [⟨code, sid, name, t2, o2⟩] ∧
      (Database.addMarks (Database.addMarks st code sid name t1 o1) code sid name t2 o2).marks.filter
        (fun m => !(m.course_code == code && m.student_id == sid && m.assignment_name == name)) =
        st.marks.filter
          (fun m => !(m.course_code == code && m.student_id == sid &&
            m.assignment_name == name)) ∧
      MarksKey (Database.addMarks (Database.addMarks st code sid name t1 o1) code sid name t2 o2) := by
  have h1 := addMarks_marksKey st code sid name t1 o1 hkey
  refine ⟨addMarks_key_row _ code sid name t2 o2 h1, ?_, addMarks_marksKey _ code sid name t2 o2 h1⟩
  rw [addMarks_other_rows, addMarks_other_rows]

theorem addMarks_upsert_witness :
    MarksKey Scenario.marked ∧
      (Database.addMarks (Database.addMarks Scenario.marked "CS101" "A" "Quiz1" 20 3)
          "CS101" "A" "Quiz1" 10 9).marks = [⟨"CS101", "A", "Quiz1", 10, 9⟩] ∧
      (Database.addMarks (Database.addMarks Scenario.marked "CS101" "B" "Quiz1" 20 3)
          "CS101" "B" "Quiz1" 10 9).marks.filter
        (fun m => m.course_code == "CS101" && m.student_id == "B" &&
          m.assignment_name == "Quiz1") = [⟨"CS101", "B", "Quiz1", 10, 9⟩] :=
  ⟨by unfold MarksKey; decide, by decide,
   (addMarks_upsert Scenario.marked "CS101" "B" "Quiz1" 20 3 10 9
     (by unfold MarksKey; decide)).1⟩

/-! ## Faculty::editMarks and the mark bounds -/

theorem nonempty_of_getElem? {α : Type} (l : List α) (i : Nat) (a : α) (h : l[i]? = some a) :
    l.isEmpty = false ∧ i < l.length := by
  obtain ⟨hlt, -⟩ := List.getElem?_eq_some.mp h
  refine ⟨?_, hlt⟩
  cases l with
  | nil => simp at hlt
  | cons x xs => rfl

theorem editMarksLoop_reject (code name : String) (st : Store)
    (marks : List (String × (Int × Int))) (student_choice new_marks : Int) (rest : List Int)
    (sel : String × (Int × Int)) (hsel : 1 ≤ student_choice)
    (hrow : marks[(student_choice - 1).toNat]? = some sel)
    (hbad : new_marks < 0 ∨ new_marks > sel.2.1) :
    Faculty.editMarksLoop code name st marks (student_choice :: new_marks :: rest) =
      Faculty.editMarksLoop code name st marks rest := by
  obtain ⟨-, hlt⟩ := nonempty_of_getElem? _ _ _ hrow
  have h0 : ¬ student_choice = 0 := by omega
  have hrange : ¬ (student_choice < 1 ∨ student_choice > (marks.length : Int)) := by omega
  rw [Faculty.editMarksLoop]
  simp only [beq_iff_eq, h0, if_false, Bool.or_eq_true, decide_eq_true_eq, hrange, hrow, hbad,
    if_true]

theorem editMarks_of_selected (st : Store) (facultyId course_choice assignment_choice : Int)
    (label name : String) (inputs : List Int) (hcc : 1 ≤ course_choice)
    (hlabel : (Database.getFacultyCourses st facultyId)[(course_choice - 1).toNat]? = some label)
    (hac : 1 ≤ assignment_choice)
    (hname : (Database.getAssignmentsForCourse st (labelCode label))[
      (assignment_choice - 1).toNat]? = some name)
    (hmarks : (Database.getStudentMarksForAssignment st (labelCode label) name).isEmpty = false) :
    Faculty.editMarks st facultyId course_choice assignment_choice inputs =
      Faculty.editMarksLoop (labelCode label) name st
        (Database.getStudentMarksForAssignment st (labelCode label) name) inputs := by
  obtain ⟨hne1, hlt1⟩ := nonempty_of_getElem? _ _ _ hlabel
  obtain ⟨hne2, hlt2⟩ := nonempty_of_getElem? _ _ _ hname
  have hr1 : ¬ (course_choice < 1 ∨
      course_choice > ((Database.getFacultyCourses st facultyId).length : Int)) := by omega
  have hr2 : ¬ (assignment_choice < 1 ∨ assignment_choice >
      ((Database.getAssignmentsForCourse st (labelCode label)).length : Int)) := by omega
  simp only [Faculty.editMarks, hne1, hlabel, hne2, hname, hmarks, Bool.false_eq_true, if_false,
    Bool.or_eq_true, decide_eq_true_eq, hr1, hr2]

/-- C16. Validation of an update: in `Faculty::editMarks`, when the selected
mark row has total marks `T` and the entered obtained marks are below 0 or
above `T`, the entry is rejected: `Database::updateMarks` is not called, the
run goes on as if the entry had not been made, and a run that ends there
leaves the store, and so the stored obtained marks, unchanged. The selected
row is a row of `marks` with that key and total. -/
theorem editMarks_rejects_out_of_range (st : Store)
    (facultyId course_choice assignment_choice student_choice new_marks : Int)
    (label name sid : String) (T o : Int) (rest : List Int)
    (hcc : 1 ≤ course_choice)
    (hlabel : (Database.getFacultyCourses st facultyId)[(course_choice - 1).toNat]? = some label)
    (hac : 1 ≤ assignment_choice)
    (hname : (Database.getAssignmentsForCourse st (labelCode label))[
      (assignment_choice - 1).toNat]? = some name)
    (hsel : 1 ≤ student_choice)
    (hrow : (Database.getStudentMarksForAssignment st (labelCode label) name)[
      (student_choice - 1).toNat]? = some (sid, (T, o)))
    (hbad : new_marks < 0 ∨ new_marks > T) :
    (∃ m ∈ st.marks, m.course_code = labelCode label ∧ m.student_id = sid ∧
        m.assignment_name = name ∧ m.total_marks = T ∧ m.obtained_marks = o) ∧
      Faculty.editMarks st facultyId course_choice assignment_choice
          (student_choice :: new_marks :: rest) =
        Faculty.editMarks st facultyId course_choice assignment_choice rest ∧
      Faculty.editMarks st facultyId course_choice assignment_choice
          [student_choice, new_marks] = st := by
  obtain ⟨hne, -⟩ := nonempty_of_getElem? _ _ _ hrow
  refine ⟨?_, ?_, ?_⟩
  · have hmem := List.getElem?_mem hrow
    simp only [Database.getStudentMarksForAssignment, List.mem_map, List.mem_filter,
      Bool.and_eq_true, beq_iff_eq, Prod.mk.injEq] at hmem
    obtain ⟨m, ⟨hm, hc, hn⟩, hs, ht, ho⟩ := hmem
    exact ⟨m, hm, hc, hs, hn, ht, ho⟩
  · rw [editMarks_of_selected st facultyId course_choice assignment_choice label name _ hcc
        hlabel hac hname hne,
      editMarks_of_selected st facultyId course_choice assignment_choice label name _ hcc
        hlabel hac hname hne]
    exact editMarksLoop_reject _ _ st _ student_choice new_marks rest (sid, (T, o)) hsel hrow hbad
  · rw [editMarks_of_selected st facultyId course_choice assignment_choice label name _ hcc
        hlabel hac hname hne,
      editMarksLoop_reject _ _ st _ student_choice new_marks [] (sid, (T, o)) hsel hrow hbad]
    rw [Faculty.editMarksLoop]

theorem editMarks_rejects_out_of_range_witness :
    Faculty.editMarks Scenario.marked 5 1 1 [1, 50] = Scenario.marked ∧
      Faculty.editMarks Scenario.marked 5 1 1 [1, -1, 1, 9] =
        Faculty.editMarks Scenario.marked 5 1 1 [1, 9] :=
  ⟨(editMarks_rejects_out_of_range Scenario.marked 5 1 1 1 50 "CS101 - Programming" "Quiz1" "A"
      10 7 [] (by decide) (by decide) (by decide) (by decide) (by decide) (by decide)
      (Or.inr (by decide))).2.2,
   (editMarks_rejects_out_of_range Scenario.marked 5 1 1 1 (-1) "CS101 - Programming" "Quiz1"
      "A" 10 7 [1, 9] (by decide) (by decide) (by decide) (by decide) (by decide) (by decide)
      (Or.inl (by decide))).2.1⟩

theorem updateMarks_marksKey (st : Store) (code sid name : String) (o : Int)
    (hkey : MarksKey st) : MarksKey (Database.updateMarks st code sid name o) := by
  simp only [MarksKey, Database.updateMarks, List.map_map]
  have : ((fun m : MarkRow => (m.course_code, m.student_id, m.assignment_name)) ∘
      (fun m : MarkRow =>
        if (m.course_code == code && m.student_id == sid && m.assignment_name == name) = true
        then ({ m with obtained_marks := o } : MarkRow) else m)) =
      (fun m : MarkRow => (m.course_code, m.student_id, m.assignment_name)) := by
    funext m
    simp only [Function.comp]
    split_ifs <;> rfl
  rw [this]
  exact hkey

theorem updateMarks_markBounds (st : Store) (code name : String) (sel : String × (Int × Int))
    (new_marks : Int) (hkey : MarksKey st) (hb : MarkBounds st)
    (hsel : sel ∈ Database.getStudentMarksForAssignment st code name)
    (hok : ¬ (new_marks < 0 ∨ new_marks > sel.2.1)) :
    MarkBounds (Database.updateMarks st code sel.1 name new_marks) := by
  simp only [Database.getStudentMarksForAssignment, List.mem_map, List.mem_filter,
    Bool.and_eq_true, beq_iff_eq] at hsel
  obtain ⟨m1, ⟨hm1, hc1, hn1⟩, rfl⟩ := hsel
  intro m hm
  simp only [Database.updateMarks, List.mem_map] at hm
  obtain ⟨m0, hm0, rfl⟩ := hm
  by_cases hk : (m0.course_code == code && m0.student_id == m1.student_id &&
      m0.assignment_name == name) = true
  · rw [if_pos hk]
    have hk0 := (markKey_match_iff m0 code m1.student_id name).mp hk
    have heq : m0 = m1 := by
      apply List.inj_on_of_nodup_map hkey hm0 hm1
      simp only [hk0, hc1, hn1]
    subst heq
    simp only at hok ⊢
    omega
  · rw [if_neg hk]
    exact hb m0 hm0

theorem editMarksLoop_markBounds (code name : String) (n : Nat) :
    ∀ (inputs : List Int), inputs.length ≤ n → ∀ st : Store, MarksKey st → MarkBounds st →
      MarkBounds (Faculty.editMarksLoop code name st
        (Database.getStudentMarksForAssignment st code name) inputs) := by
  induction n with
  | zero =>
    intro inputs hlen st _ hb
    have : inputs = [] := List.length_eq_zero.mp (by omega)
    subst this
    rw [Faculty.editMarksLoop]
    exact hb
  | succ n ih =>
    intro inputs hlen st hkey hb
    match inputs, hlen with
    | [], _ => rw [Faculty.editMarksLoop]; exact hb
    | [_], _ => rw [Faculty.editMarksLoop]; exact hb
    | student_choice :: new_marks :: rest, hlen =>
      simp only [List.length_cons] at hlen
      rw [Faculty.editMarksLoop]
      split_ifs with h0 hrange
      · exact hb
      · exact ih (new_marks :: rest) (by simp only [List.length_cons]; omega) st hkey hb
      · split
        · exact hb
        · rename_i sel hsel
          split_ifs with hbad
          · exact ih rest (by omega) st hkey hb
          · exact ih rest (by omega) _ (updateMarks_marksKey st code sel.1 name new_marks hkey)
              (updateMarks_markBounds st code name sel new_marks hkey hb
                (List.getElem?_mem hsel) (by simpa using hbad))

theorem editMarks_markBounds (st : Store) (facultyId course_choice assignment_choice : Int)
    (inputs : List Int) (hkey : MarksKey st) (hb : MarkBounds st) :
    MarkBounds (Faculty.editMarks st facultyId course_choice assignment_choice inputs) := by
  unfold Faculty.editMarks
  simp only []
  split_ifs
  · exact hb
  · exact hb
  · split
    · exact hb
    · split_ifs
      · exact hb
      · exact hb
      · split
        · exact hb
        · split_ifs
          · exact hb
          · exact editMarksLoop_markBounds _ _ inputs.length inputs (le_refl _) st hkey hb

/-- C18, at a failing input: on a store whose marks rows are all within bounds
(it has none), the `Faculty::addMarks` run of faculty 5 for `CS101`,
assignment `Quiz1`, total marks 10, choosing student 1 and entering 50,
stores the row (CS101, A, Quiz1, 10, 50), whose obtained marks exceed its total
marks. -/
theorem addMarks_breaks_mark_bounds :
    MarkBounds Scenario.oneEnrolled ∧
      (runMarks Scenario.oneEnrolled [.record 5 1 "Quiz1" 10 [1, 50]]).marks =
        [⟨"CS101", "A", "Quiz1", 10, 50⟩] ∧
      ¬ MarkBounds (runMarks Scenario.oneEnrolled [.record 5 1 "Quiz1" 10 [1, 50]]) :=
  ⟨by unfold MarkBounds; decide, by decide, by unfold MarkBounds; decide⟩

/-! ## Database::getStudentMarks -/

theorem mem_studentMarkRows (st : Store) (sid code : String) (mk : Database.Mark) :
    mk ∈ Database.studentMarkRows st sid code ↔
      ∃ m ∈ st.marks, ∃ c ∈ st.courses, c.course_code = m.course_code ∧ m.student_id = sid ∧
        (code = "" ∨ m.course_code = code) ∧
        mk = ⟨m.assignment_name, m.total_marks, m.obtained_marks, c.course_name⟩ := by
  simp only [Database.studentMarkRows, List.mem_map, List.mem_filter, List.mem_flatMap,
    Bool.and_eq_true, Bool.or_eq_true, beq_iff_eq, String.isEmpty_iff]
  constructor
  · rintro ⟨row, ⟨⟨m, hm, c, ⟨hc, hcode⟩, rfl⟩, hs, hsel⟩, rfl⟩
    exact ⟨m, hm, c, hc, hcode.symm, hs, hsel, rfl⟩
  · rintro ⟨m, hm, c, hc, hcode, hs, hsel, rfl⟩
    exact ⟨(m, c), ⟨⟨m, hm, c, ⟨hc, hcode.symm⟩, rfl⟩, hs, hsel⟩, rfl⟩

theorem studentMarkRows_length (st : Store) (sid code : String)
    (hkey : (st.courses.map (fun c => c.course_code)).Nodup) :
    (Database.studentMarkRows st sid code).length =
      (st.marks.filter (fun m =>
        m.student_id == sid && (code.isEmpty || m.course_code == code) &&
          st.courses.any (fun c => m.course_code == c.course_code))).length := by
  simp only [Database.studentMarkRows, List.length_map]
  induction st.marks with
  | nil => rfl
  | cons m l ih =>
    rw [List.flatMap_cons, List.filter_append, List.length_append, ih]
    have hle := filter_length_le_one_of_nodup_key (fun c : CourseRow => c.course_code)
      (fun c => m.course_code == c.course_code) m.course_code
      (fun c => by rw [beq_iff_eq]; exact eq_comm) st.courses hkey
    by_cases hsel : (m.student_id == sid && (code.isEmpty || m.course_code == code)) = true
    · have hall : ((st.courses.filter (fun c => m.course_code == c.course_code)).map
          (fun c => (m, c))).filter (fun row => row.1.student_id == sid &&
            (code.isEmpty || row.1.course_code == code)) =
          (st.courses.filter (fun c => m.course_code == c.course_code)).map (fun c => (m, c)) := by
        rw [List.filter_eq_self]
        intro row hrow
        rw [List.mem_map] at hrow
        obtain ⟨c, -, rfl⟩ := hrow
        exact hsel
      rw [hall, List.length_map]
      by_cases hany : st.courses.any (fun c => m.course_code == c.course_code) = true
      · rw [List.filter_cons_of_pos (by simp only [hsel, hany, Bool.and_self])]
        have hpos : 0 < (st.courses.filter (fun c => m.course_code == c.course_code)).length := by
          rw [List.any_eq_true] at hany
          obtain ⟨c, hc, hcm⟩ := hany
          exact List.length_pos_of_mem (List.mem_filter.mpr ⟨hc, hcm⟩)
        rw [List.length_cons]
        omega
      · rw [List.filter_cons_of_neg (by simp only [hany, Bool.and_false, Bool.false_eq_true,
          not_false_eq_true])]
        have hnone : st.courses.filter (fun c => m.course_code == c.course_code) = [] := by
          rw [List.filter_eq_nil_iff]
          intro c hc hcm
          exact hany (List.any_eq_true.mpr ⟨c, hc, hcm⟩)
        rw [hnone]
        simp
    · have hnone : ((st.courses.filter (fun c => m.course_code == c.course_code)).map
          (fun c => (m, c))).filter (fun row => row.1.student_id == sid &&
            (code.isEmpty || row.1.course_code == code)) = [] := by
        rw [List.filter_eq_nil_iff]
        intro row hrow
        rw [List.mem_map] at hrow
        obtain ⟨c, -, rfl⟩ := hrow
        exact hsel
      rw [hnone, List.filter_cons_of_neg (by
        intro h
        rw [Bool.and_eq_true] at h
        exact hsel h.1)]
      simp

/-- C19. Ordering and content of `Database::getStudentMarks`: the result is
sorted ascending by `assignment_name`; it contains exactly the marks rows of
the student, restricted to `courseCode` when that is not empty, whose course
code names a `courses` row, each with that course's name; and when course
codes are unique every such marks row appears exactly once. -/
theorem getStudentMarks_spec (st : Store) (sid code : String) :
    (Database.getStudentMarks st sid code).Sorted
        (fun a b => a.assignment_name ≤ b.assignment_name) ∧
      (∀ mk : Database.Mark, mk ∈ Database.getStudentMarks st sid code ↔
        ∃ m ∈ st.marks, ∃ c ∈ st.courses, c.course_code = m.course_code ∧ m.student_id = sid ∧
          (code = "" ∨ m.course_code = code) ∧
          mk = ⟨m.assignment_name, m.total_marks, m.obtained_marks, c.course_name⟩) ∧
      ((st.courses.map (fun c => c.course_code)).Nodup →
        (Database.getStudentMarks st sid code).length =
          (st.marks.filter (fun m =>
            m.student_id == sid && (code.isEmpty || m.course_code == code) &&
              st.courses.any (fun c => m.course_code == c.course_code))).length) := by
  haveI : IsTotal Database.Mark (fun a b => a.assignment_name ≤ b.assignment_name) :=
    ⟨fun a b => le_total a.assignment_name b.assignment_name⟩
  haveI : IsTrans Database.Mark (fun a b => a.assignment_name ≤ b.assignment_name) :=
    ⟨fun _ _ _ h1 h2 => le_trans h1 h2⟩
  refine ⟨List.sorted_insertionSort _ _, ?_, ?_⟩
  · intro mk
    rw [← mem_studentMarkRows]
    exact (List.perm_insertionSort _ _).mem_iff
  · intro hkey
    rw [← studentMarkRows_length st sid code hkey]
    exact (List.perm_insertionSort _ _).length_eq

/-! ## Available faculty and rooms -/

theorem any_filter_eq_false_iff {α : Type} (l : List α) (p q : α → Bool) :
    (l.filter p).any q = false ↔ ∀ a ∈ l, p a = true → q a = false := by
  rw [List.any_eq_false]
  constructor
  · intro h a ha hp
    simpa using h a (List.mem_filter.mpr ⟨ha, hp⟩)
  · intro h a ha
    rw [List.mem_filter] at ha
    simpa using h a ha.1 ha.2

theorem getAvailableFaculty_eq (st : Store) (t : Int) :
    Database.getAvailableFaculty st t =
      (st.faculty.filter (fun f =>
        decide (∀ cs ∈ st.course_schedule,
          ¬ (cs.faculty_id = f.faculty_id ∧ cs.timeslot_id = t)))).map
        (fun f => (f.faculty_id, f.first_name ++ " " ++ f.last_name)) := by
  simp only [Database.getAvailableFaculty]
  congr 1
  apply List.filter_congr
  intro f _
  rw [Bool.eq_iff_iff]
  simp only [Bool.not_eq_true', any_filter_eq_false_iff, beq_iff_eq, beq_eq_false_iff_ne,
    decide_eq_true_eq, ne_eq, not_and]
  constructor
  · intro h cs hcs hf ht
    exact h cs hcs ht hf
  · intro h cs hcs ht hf
    exact h cs hcs hf ht

theorem getAvailableRooms_eq (st : Store) (t : Int) :
    Database.getAvailableRooms st t =
      (st.classrooms.filter (fun cl =>
        decide (∀ cs ∈ st.course_schedule,
          ¬ (cs.room_id = cl.room_id ∧ cs.timeslot_id = t)))).map
        (fun cl => (cl.room_id, cl.room_number ++ " " ++ cl.building)) := by
  simp only [Database.getAvailableRooms]
  congr 1
  apply List.filter_congr
  intro cl _
  rw [Bool.eq_iff_iff]
  simp only [Bool.not_eq_true', any_filter_eq_false_iff, beq_iff_eq, beq_eq_false_iff_ne,
    decide_eq_true_eq, ne_eq, not_and]
  constructor
  · intro h cs hcs hf ht
    exact h cs hcs ht hf
  · intro h cs hcs ht hf
    exact h cs hcs hf ht

/-- C21. Available faculty: `Database::getAvailableFaculty(t)` returns exactly
the (id, name) of the faculty members whose `faculty_id` is in no
`course_schedule` row with timeslot id `t`; a faculty member is listed if and
only if no session binds them at `t`, whatever sessions bind them at other
timeslots. -/
theorem getAvailableFaculty_spec (st : Store) (t : Int) :
    Database.getAvailableFaculty st t =
        (st.faculty.filter (fun f =>
          decide (∀ cs ∈ st.course_schedule,
            ¬ (cs.faculty_id = f.faculty_id ∧ cs.timeslot_id = t)))).map
          (fun f => (f.faculty_id, f.first_name ++ " " ++ f.last_name)) ∧
      (∀ f ∈ st.faculty,
        (f.faculty_id, f.first_name ++ " " ++ f.last_name) ∈ Database.getAvailableFaculty st t ↔
          ∀ cs ∈ st.course_schedule, ¬ (cs.faculty_id = f.faculty_id ∧ cs.timeslot_id = t)) ∧
      (∀ p ∈ Database.getAvailableFaculty st t,
        (∃ f ∈ st.faculty, f.faculty_id = p.1) ∧
          ∀ cs ∈ st.course_schedule, ¬ (cs.faculty_id = p.1 ∧ cs.timeslot_id = t)) := by
  refine ⟨getAvailableFaculty_eq st t, ?_, ?_⟩
  · intro f hf
    constructor
    · exact getAvailableFaculty_free st t _
    · intro h
      rw [getAvailableFaculty_eq]
      simp only [List.mem_map, List.mem_filter, decide_eq_true_eq]
      exact ⟨f, ⟨hf, h⟩, rfl⟩
  · intro p hp
    refine ⟨?_, getAvailableFaculty_free st t p hp⟩
    rw [getAvailableFaculty_eq] at hp
    simp only [List.mem_map, List.mem_filter] at hp
    obtain ⟨f, ⟨hf, -⟩, rfl⟩ := hp
    exact ⟨f, hf, rfl⟩

/-- C22. Available rooms: `Database::getAvailableRooms(t)` returns exactly the
(id, label) of the classrooms whose `room_id` is in no `course_schedule` row
with timeslot id `t`; a classroom is listed if and only if no session binds it
at `t`, whatever sessions bind it at other timeslots. -/
theorem getAvailableRooms_spec (st : Store) (t : Int) :
    Database.getAvailableRooms st t =
        (st.classrooms.filter (fun cl =>
          decide (∀ cs ∈ st.course_schedule,
            ¬ (cs.room_id = cl.room_id ∧ cs.timeslot_id = t)))).map
          (fun cl => (cl.room_id, cl.room_number ++ " " ++ cl.building)) ∧
      (∀ cl ∈ st.classrooms,
        (cl.room_id, cl.room_number ++ " " ++ cl.building) ∈ Database.getAvailableRooms st t ↔
          ∀ cs ∈ st.course_schedule, ¬ (cs.room_id = cl.room_id ∧ cs.timeslot_id = t)) ∧
      (∀ p ∈ Database.getAvailableRooms st t,
        (∃ cl ∈ st.classrooms, cl.room_id = p.1) ∧
          ∀ cs ∈ st.course_schedule, ¬ (cs.room_id = p.1 ∧ cs.timeslot_id = t)) := by
  refine ⟨getAvailableRooms_eq st t, ?_, ?_⟩
  · intro cl hcl
    constructor
    · exact getAvailableRooms_free st t _
    · intro h
      rw [getAvailableRooms_eq]
      simp only [List.mem_map, List.mem_filter, decide_eq_true_eq]
      exact ⟨cl, ⟨hcl, h⟩, rfl⟩
  · intro p hp
    refine ⟨?_, getAvailableRooms_free st t p hp⟩
    rw [getAvailableRooms_eq] at hp
    simp only [List.mem_map, List.mem_filter] at hp
    obtain ⟨cl, ⟨hcl, -⟩, rfl⟩ := hp
    exact ⟨cl, hcl, rfl⟩

/-! ## Clash detection by timeslot id -/

/-- C24. Timeslot ids are atomic for clash detection: when none of the
student's enrollments is in a session with timeslot id `t`,
`Database::hasClash(studentId, t)` is false, and it stays false whatever rows
(days, start and end times) the `timeslots` table holds. -/
theorem hasClash_timeslot_ids_atomic (st : Store) (studentId : String) (t : Int)
    (slots : List TimeslotRow)
    (h : ∀ e ∈ st.enrollments, e.student_id = studentId →
      ∀ cs ∈ st.course_schedule, cs.schedule_id = e.schedule_id → cs.timeslot_id ≠ t) :
    Database.hasClash st studentId t = false ∧
      Database.hasClash { st with timeslots := slots } studentId t = false := by
  have hno : ¬ HoldsTimeslot st studentId t := by
    rintro ⟨e, he, hs, cs, hcs, hid, ht⟩
    exact h e he hs cs hcs hid ht
  have h1 : Database.hasClash st studentId t = false := by
    rw [← Bool.not_eq_true, hasClash_iff]
    exact hno
  exact ⟨h1, h1⟩

theorem hasClash_timeslot_ids_atomic_witness :
    Database.hasClash Scenario.overlapping "A" 12 = false ∧
      Student.addCourse Scenario.overlapping "A" 2 =
        (AddCourseOutcome.enrolled, withEnrollment Scenario.overlapping "A" 2) :=
  ⟨(hasClash_timeslot_ids_atomic Scenario.overlapping "A" 12 Scenario.overlapping.timeslots
      (by decide)).1, by decide⟩

/-- C27. A duplicate is always also a clash: when session `scheduleId` exists
with timeslot id `t` and `Database::isAlreadyEnrolled(studentId, scheduleId)`
is true, `Database::hasClash(studentId, t)` is true. So for every offering
chosen in `Student::addCourse` the duplicate test implies the clash test, the
run is rejected as duplicate or clash exactly when `hasClash` holds, and it is
reported as a duplicate exactly when `isAlreadyEnrolled` holds, which is tested
first. -/
theorem duplicate_implies_clash (st : Store) (studentId : String) (schedule_id t : Int)
    (hsession : ∃ cs ∈ st.course_schedule, cs.schedule_id = schedule_id ∧ cs.timeslot_id = t)
    (hdup : Database.isAlreadyEnrolled st studentId schedule_id = true) :
    Database.hasClash st studentId t = true ∧
      ∀ (id : String) (cidx : Int) (sc : Database.ScheduledCourse), 1 ≤ cidx →
        (candidates st id)[(cidx - 1).toNat]? = some sc →
        (Database.isAlreadyEnrolled st id sc.schedule_id = true →
          Database.hasClash st id sc.timeslot_id = true) ∧
        (((Student.addCourse st id cidx).1 = AddCourseOutcome.alreadyEnrolled ∨
            (Student.addCourse st id cidx).1 = AddCourseOutcome.clash) ↔
          Database.hasClash st id sc.timeslot_id = true) ∧
        ((Student.addCourse st id cidx).1 = AddCourseOutcome.alreadyEnrolled ↔
          Database.isAlreadyEnrolled st id sc.schedule_id = true) := by
  have key : ∀ (id : String) (s ts : Int),
      (∃ cs ∈ st.course_schedule, cs.schedule_id = s ∧ cs.timeslot_id = ts) →
      Database.isAlreadyEnrolled st id s = true → Database.hasClash st id ts = true := by
    intro id s ts ⟨cs, hcs, hid, hts⟩ hd
    rw [hasClash_iff]
    exact ⟨⟨id, s⟩, (isAlreadyEnrolled_iff st id s).mp hd, rfl, cs, hcs, hid, hts⟩
  refine ⟨key studentId schedule_id t hsession hdup, ?_⟩
  intro id cidx sc hsel hsc
  have himp : Database.isAlreadyEnrolled st id sc.schedule_id = true →
      Database.hasClash st id sc.timeslot_id = true :=
    key id sc.schedule_id sc.timeslot_id (candidates_session st id sc (List.getElem?_mem hsc))
  refine ⟨himp, ?_, ?_⟩
  · rw [addCourse_of_selected st id cidx sc hsel hsc]
    by_cases h1 : Database.isAlreadyEnrolled st id sc.schedule_id = true
    · simp [h1, himp h1]
    · by_cases h2 : Database.hasClash st id sc.timeslot_id = true
      · simp [h1, h2]
      · rw [if_neg h1, if_neg h2]
        rcases addEnrollment_cases st id sc.schedule_id with h | h <;> simp [h, h2]
  · rw [addCourse_of_selected st id cidx sc hsel hsc]
    by_cases h1 : Database.isAlreadyEnrolled st id sc.schedule_id = true
    · simp [h1]
    · by_cases h2 : Database.hasClash st id sc.timeslot_id = true
      · simp [h1, h2]
      · rw [if_neg h1, if_neg h2]
        rcases addEnrollment_cases st id sc.schedule_id with h | h <;> simp [h, h1]

theorem duplicate_implies_clash_witness :
    Database.isAlreadyEnrolled Scenario.oneEnrolled "A" 1 = true ∧
      Database.hasClash Scenario.oneEnrolled "A" 10 = true :=
  ⟨by decide,
   (duplicate_implies_clash Scenario.oneEnrolled "A" 1 10
      ⟨⟨1, "CS101", 5, 10, "R1"⟩, by decide, rfl, rfl⟩ (by decide)).1⟩

/-! ## Enroll, drop, enroll again -/

theorem dropEnrollment_withEnrollment (st : Store) (studentId : String) (schedule_id : Int)
    (hnew : (⟨studentId, schedule_id⟩ : EnrollmentRow) ∉ st.enrollments) :
    Database.dropEnrollment (withEnrollment st studentId schedule_id) studentId schedule_id =
      (true, st) := by
  apply Prod.ext
  · rw [dropEnrollment_fst]
    simp [withEnrollment]
  · rw [dropEnrollment_snd]
    have hkeep : st.enrollments.filter (fun e => decide (e ≠ ⟨studentId, schedule_id⟩)) =
        st.enrollments := by
      rw [List.filter_eq_self]
      intro e he
      simp only [ne_eq, decide_eq_true_eq]
      intro heq
      exact hnew (heq ▸ he)
    simp only [withEnrollment, List.filter_append, hkeep]
    simp [List.filter_cons]

/-- C25. Dropped is equivalent to Absent: when `Student::addCourse` succeeds
for a student, the following `Database::dropEnrollment` of the enrolled pair
returns true and gives back the store as it was before the enroll, and the same
enroll then succeeds again with the same result; the same holds for a direct
`Database::addEnrollment` that returns true on a pair not enrolled before. -/
theorem enroll_drop_enroll (st : Store) (id : String) (cidx : Int)
    (h : (Student.addCourse st id cidx).1 = AddCourseOutcome.enrolled) :
    (∃ sc ∈ candidates st id,
      (Student.addCourse st id cidx).2 = withEnrollment st id sc.schedule_id ∧
      Database.dropEnrollment (Student.addCourse st id cidx).2 id sc.schedule_id = (true, st) ∧
      Student.addCourse
          (Database.dropEnrollment (Student.addCourse st id cidx).2 id sc.schedule_id).2 id cidx =
        Student.addCourse st id cidx) ∧
      ∀ (studentId : String) (schedule_id : Int),
        (⟨studentId, schedule_id⟩ : EnrollmentRow) ∉ st.enrollments →
        (Database.addEnrollment st studentId schedule_id).1 = true →
        Database.dropEnrollment (Database.addEnrollment st studentId schedule_id).2
            studentId schedule_id = (true, st) ∧
          Database.addEnrollment
              (Database.dropEnrollment (Database.addEnrollment st studentId schedule_id).2
                studentId schedule_id).2 studentId schedule_id =
            Database.addEnrollment st studentId schedule_id := by
  constructor
  · rcases addCourse_store st id cidx with hsame | ⟨sc, hsc, hnot, -, hnew⟩
    · exfalso
      by_cases hsel : 1 ≤ cidx
      · cases hq : (candidates st id)[(cidx - 1).toNat]? with
        | none =>
          unfold candidates at hq
          simp only [Student.addCourse, hq] at h
          split_ifs at h
        | some sc =>
          rw [addCourse_of_selected st id cidx sc hsel hq] at h hsame
          by_cases h1 : Database.isAlreadyEnrolled st id sc.schedule_id = true
          · simp [h1] at h
          · by_cases h2 : Database.hasClash st id sc.timeslot_id = true
            · simp [h1, h2] at h
            · rw [if_neg h1, if_neg h2] at h hsame
              rcases addEnrollment_cases st id sc.schedule_id with he | he
              · simp [he] at h
              · rw [he] at hsame
                have hlen := congrArg (fun s : Store => s.enrollments.length) hsame
                simp [withEnrollment] at hlen
      · have hlt : cidx < 1 := by omega
        simp only [Student.addCourse, hlt, decide_True, Bool.true_or, if_true] at h
        split_ifs at h
    · have hnotmem : (⟨id, sc.schedule_id⟩ : EnrollmentRow) ∉ st.enrollments := by
        intro hmem
        rw [(isAlreadyEnrolled_iff st id sc.schedule_id).mpr hmem] at hnot
        exact Bool.noConfusion hnot
      have hdrop := dropEnrollment_withEnrollment st id sc.schedule_id hnotmem
      refine ⟨sc, hsc, hnew, ?_, ?_⟩
      · rw [hnew]; exact hdrop
      · rw [hnew, hdrop]
  · intro studentId schedule_id hnotmem hok
    rcases addEnrollment_cases st studentId schedule_id with he | he
    · rw [he] at hok
      exact Bool.noConfusion hok
    · have hdrop := dropEnrollment_withEnrollment st studentId schedule_id hnotmem
      rw [he, hdrop]
      exact ⟨rfl, he⟩

theorem enroll_drop_enroll_witness :
    Student.addCourse Scenario.oneEnrolled "B" 1 = (AddCourseOutcome.enrolled, Scenario.full) ∧
      ∃ sc ∈ candidates Scenario.oneEnrolled "B",
        (Student.addCourse Scenario.oneEnrolled "B" 1).2 =
          withEnrollment Scenario.oneEnrolled "B" sc.schedule_id ∧
        Database.dropEnrollment (Student.addCourse Scenario.oneEnrolled "B" 1).2 "B"
          sc.schedule_id = (true, Scenario.oneEnrolled) ∧
        Student.addCourse
            (Database.dropEnrollment (Student.addCourse Scenario.oneEnrolled "B" 1).2 "B"
              sc.schedule_id).2 "B" 1 =
          Student.addCourse Scenario.oneEnrolled "B" 1 :=
  ⟨by decide, (enroll_drop_enroll Scenario.oneEnrolled "B" 1 (by decide)).1⟩

/-! ## The eligibility list -/

theorem mem_scheduleJoin (st : Store)
    (row : ScheduleRow × CourseRow × FacultyRow × TimeslotRow × ClassroomRow) :
    row ∈ Database.scheduleJoin st ↔
      row.1 ∈ st.course_schedule ∧ row.2.1 ∈ st.courses ∧ row.2.2.1 ∈ st.faculty ∧
        row.2.2.2.1 ∈ st.timeslots ∧ row.2.2.2.2 ∈ st.classrooms ∧
        row.1.course_code = row.2.1.course_code ∧ row.1.faculty_id = row.2.2.1.faculty_id ∧
        row.1.timeslot_id = row.2.2.2.1.timeslot_id ∧ row.1.room_id = row.2.2.2.2.room_id := by
  obtain ⟨cs, c, f, t, cl⟩ := row
  simp only [Database.scheduleJoin, List.mem_flatMap, List.mem_map, List.mem_filter, beq_iff_eq,
    Prod.mk.injEq]
  constructor
  · rintro ⟨cs1, hcs, c1, ⟨hc, hcc⟩, f1, ⟨hf, hff⟩, t1, ⟨ht, htt⟩, cl1, ⟨hcl, hll⟩,
      rfl, rfl, rfl, rfl, rfl⟩
    exact ⟨hcs, hc, hf, ht, hcl, hcc, hff, htt, hll⟩
  · rintro ⟨hcs, hc, hf, ht, hcl, hcc, hff, htt, hll⟩
    exact ⟨cs, hcs, c, ⟨hc, hcc⟩, f, ⟨hf, hff⟩, t, ⟨ht, htt⟩, cl, ⟨hcl, hll⟩,
      rfl, rfl, rfl, rfl, rfl⟩

theorem mem_candidates (st : Store) (id : String) (sc : Database.ScheduledCourse) :
    sc ∈ candidates st id ↔
      ∃ cs ∈ st.course_schedule, ∃ c ∈ st.courses, ∃ f ∈ st.faculty, ∃ t ∈ st.timeslots,
        ∃ cl ∈ st.classrooms,
          cs.course_code = c.course_code ∧ cs.faculty_id = f.faculty_id ∧
          cs.timeslot_id = t.timeslot_id ∧ cs.room_id = cl.room_id ∧
          c.semester = Database.getStudentSemester st id ∧
          c.department = Database.getStudentDegree st id ∧
          sc = { schedule_id := cs.schedule_id
                 course_code := cs.course_code
                 course_name := c.course_name
                 faculty_name := f.first_name ++ " " ++ f.last_name
                 day := t.day_of_week
                 start_time := t.start_time
                 end_time := t.end_time
                 room_number := cl.room_number
                 building := cl.building
                 timeslot_id := cs.timeslot_id } := by
  simp only [candidates, Database.getAvailableScheduledCourses, List.mem_map, List.mem_filter,
    mem_scheduleJoin, Bool.and_eq_true, beq_iff_eq]
  constructor
  · rintro ⟨⟨cs, c, f, t, cl⟩, ⟨⟨hcs, hc, hf, ht, hcl, hcc, hff, htt, hll⟩, hsem, hdep⟩, rfl⟩
    exact ⟨cs, hcs, c, hc, f, hf, t, ht, cl, hcl, hcc, hff, htt, hll, hsem, hdep, rfl⟩
  · rintro ⟨cs, hcs, c, hc, f, hf, t, ht, cl, hcl, hcc, hff, htt, hll, hsem, hdep, rfl⟩
    exact ⟨(cs, c, f, t, cl), ⟨⟨hcs, hc, hf, ht, hcl, hcc, hff, htt, hll⟩, hsem, hdep⟩, rfl⟩

theorem student_lookups (st : Store) (id : String) (s : StudentRow)
    (hs : st.students.find? (fun x => x.student_id == id) = some s) :
    Database.getStudentSemester st id = s.semester ∧
      Database.getStudentDegree st id = s.degree := by
  simp only [Database.getStudentSemester, Database.getStudentDegree, hs, and_self]

/-- C23, as stated, fails: after `Database::removeFaculty(6)` session 2 is a
session of `MA101`, whose semester 1 and department `BSCS` are those of the
row of student A, and the candidate list of A does not contain it. -/
theorem candidates_missing_faculty_counterexample :
    Scenario.facultyRemoved.students.find? (fun x => x.student_id == "A") =
        some ⟨"A", "Ann", "A", "a@bnu.edu.pk", "BSCS", 1, "bnu"⟩ ∧
      (⟨2, "MA101", 6, 10, "R2"⟩ : ScheduleRow) ∈ Scenario.facultyRemoved.course_schedule ∧
      (⟨"MA101", "Calculus", 3, 1, "BSCS", 5, ""⟩ : CourseRow) ∈ Scenario.facultyRemoved.courses ∧
      (candidates Scenario.facultyRemoved "A").map (fun sc => sc.schedule_id) = [1] ∧
      ∀ sc ∈ candidates Scenario.facultyRemoved "A", sc.schedule_id ≠ 2 :=
  ⟨by decide, by decide, by decide, by decide, by decide⟩

/-- C23 (amended). Eligibility filter: for a student with row `s` in
`students`, the candidate list of `Student::addCourse` holds exactly the
sessions joined to a course row with `semester = s.semester` and `department =
s.degree` and to an existing faculty member, timeslot and classroom row; every
listed entry is a session with such a course row; and every session with such a
course row whose faculty member, timeslot and classroom rows exist is
listed. -/
theorem candidates_spec (st : Store) (id : String) (s : StudentRow)
    (hs : st.students.find? (fun x => x.student_id == id) = some s) :
    (∀ sc : Database.ScheduledCourse, sc ∈ candidates st id ↔
      ∃ cs ∈ st.course_schedule, ∃ c ∈ st.courses, ∃ f ∈ st.faculty, ∃ t ∈ st.timeslots,
        ∃ cl ∈ st.classrooms,
          cs.course_code = c.course_code ∧ cs.faculty_id = f.faculty_id ∧
          cs.timeslot_id = t.timeslot_id ∧ cs.room_id = cl.room_id ∧
          c.semester = s.semester ∧ c.department = s.degree ∧
          sc = { schedule_id := cs.schedule_id
                 course_code := cs.course_code
                 course_name := c.course_name
                 faculty_name := f.first_name ++ " " ++ f.last_name
                 day := t.day_of_week
                 start_time := t.start_time
                 end_time := t.end_time
                 room_number := cl.room_number
                 building := cl.building
                 timeslot_id := cs.timeslot_id }) ∧
      (∀ sc ∈ candidates st id, ∃ cs ∈ st.course_schedule, ∃ c ∈ st.courses,
        cs.schedule_id = sc.schedule_id ∧ cs.course_code = c.course_code ∧
        c.semester = s.semester ∧ c.department = s.degree) ∧
      (∀ cs ∈ st.course_schedule, ∀ c ∈ st.courses,
        cs.course_code = c.course_code → c.semester = s.semester → c.department = s.degree →
        (∃ f ∈ st.faculty, f.faculty_id = cs.faculty_id) →
        (∃ t ∈ st.timeslots, t.timeslot_id = cs.timeslot_id) →
        (∃ cl ∈ st.classrooms, cl.room_id = cs.room_id) →
        ∃ sc ∈ candidates st id, sc.schedule_id = cs.schedule_id ∧
          sc.course_code = cs.course_code ∧ sc.course_name = c.course_name ∧
          sc.timeslot_id = cs.timeslot_id) := by
  obtain ⟨hsem, hdeg⟩ := student_lookups st id s hs
  refine ⟨?_, ?_, ?_⟩
  · intro sc
    rw [mem_candidates, hsem, hdeg]
  · intro sc hsc
    rw [mem_candidates, hsem, hdeg] at hsc
    obtain ⟨cs, hcs, c, hc, f, -, t, -, cl, -, hcc, -, -, -, hcsem, hcdep, rfl⟩ := hsc
    exact ⟨cs, hcs, c, hc, rfl, hcc, hcsem, hcdep⟩
  · intro cs hcs c hc hcc hcsem hcdep ⟨f, hf, hff⟩ ⟨t, ht, htt⟩ ⟨cl, hcl, hll⟩
    refine ⟨_, (mem_candidates st id _).mpr
      ⟨cs, hcs, c, hc, f, hf, t, ht, cl, hcl, hcc, hff.symm, htt.symm, hll.symm,
        by rw [hsem]; exact hcsem, by rw [hdeg]; exact hcdep, rfl⟩,
      rfl, rfl, rfl, rfl⟩

theorem candidates_spec_witness :
    Scenario.oneEnrolled.students.find? (fun x => x.student_id == "B") =
        some ⟨"B", "Bob", "B", "b@bnu.edu.pk", "BSCS", 1, "bnu"⟩ ∧
      ∃ sc ∈ candidates Scenario.oneEnrolled "B", sc.schedule_id = 2 ∧
        sc.course_code = "MA101" ∧ sc.course_name = "Calculus" ∧ sc.timeslot_id = 10 :=
  ⟨by decide,
   (candidates_spec Scenario.oneEnrolled "B" ⟨"B", "Bob", "B", "b@bnu.edu.pk", "BSCS", 1, "bnu"⟩
      (by decide)).2.2
     ⟨2, "MA101", 6, 10, "R2"⟩ (by decide) ⟨"MA101", "Calculus", 3, 1, "BSCS", 5, ""⟩ (by decide)
     rfl rfl rfl
     ⟨⟨6, "Gus", "G", "g@bnu.edu.pk", "PhD", "PhD", "MA", "Professor", "faculty_scit"⟩,
       by decide, rfl⟩
     ⟨⟨10, "Monday", "09:00:00", "10:00:00"⟩, by decide, rfl⟩
     ⟨⟨"R2", "Main", "102", 40, "Lecture"⟩, by decide, rfl⟩⟩

/-! ## Timeslot selection in Admin::assignCourseSchedule -/

theorem assignCourseSchedule_completed (st : Store) (new_id c t f r : Int)
    (h : (Admin.assignCourseSchedule st new_id c t f r).1 = AssignOutcome.completed) :
    ∃ (course : String × String) (slot : Int × String) (fac : Int × String)
      (room : String × String),
      1 ≤ t ∧ t ≤ ((Database.getAllTimeslots st).length : Int) ∧
      (Database.getUnscheduledCourses st)[(c - 1).toNat]? = some course ∧
      (Database.getAllTimeslots st)[(t - 1).toNat]? = some slot ∧
      (Database.getAvailableFaculty st slot.1)[(f - 1).toNat]? = some fac ∧
      (Database.getAvailableRooms st slot.1)[(r - 1).toNat]? = some room ∧
      Admin.assignCourseSchedule st new_id c t f r =
        (AssignOutcome.completed,
          Database.addCourseSchedule st new_id course.1 fac.1 slot.1 room.1) := by
  have hcases : (Admin.assignCourseSchedule st new_id c t f r).1 ≠ AssignOutcome.completed ∨
      ∃ (course : String × String) (slot : Int × String) (fac : Int × String)
        (room : String × String),
        1 ≤ t ∧ t ≤ ((Database.getAllTimeslots st).length : Int) ∧
        (Database.getUnscheduledCourses st)[(c - 1).toNat]? = some course ∧
        (Database.getAllTimeslots st)[(t - 1).toNat]? = some slot ∧
        (Database.getAvailableFaculty st slot.1)[(f - 1).toNat]? = some fac ∧
        (Database.getAvailableRooms st slot.1)[(r - 1).toNat]? = some room ∧
        Admin.assignCourseSchedule st new_id c t f r =
          (AssignOutcome.completed,
            Database.addCourseSchedule st new_id course.1 fac.1 slot.1 room.1) := by
    unfold Admin.assignCourseSchedule
    simp only []
    split_ifs with h1 h2
    · left; simp
    · left; simp
    · simp only [Bool.or_eq_true, decide_eq_true_eq, not_or, not_lt, gt_iff_lt] at h2
      split
      · rename_i course slot hcourse hslot
        split_ifs
        · left; simp
        · left; simp
        · left; simp
        · left; simp
        · split
          · rename_i fac room hfac hroom
            right
            exact ⟨course, slot, fac, room, by omega, by omega, hcourse, hslot, hfac, hroom, rfl⟩
          · left; simp
      · left; simp
  rcases hcases with hne | hex
  · exact absurd h hne
  · exact hex

/-- C28. Timeslot selection in allocate: when `Admin::assignCourseSchedule`
completes for the entered number `t`, then `1 <= t <= number of timeslots`,
and the timeslot id stored in the new session, which is also the one passed to
`getAvailableFaculty` and `getAvailableRooms`, is the id of the `t`-th entry of
`getAllTimeslots()`. That id equals the entered number for every accepted `t`
if and only if the listed ids are 1, 2, ..., n in list order. -/
theorem assignCourseSchedule_timeslot (st : Store) (new_id c t f r : Int)
    (h : (Admin.assignCourseSchedule st new_id c t f r).1 = AssignOutcome.completed) :
    (∃ (slot : Int × String) (course : String × String) (fac : Int × String)
        (room : String × String),
      1 ≤ t ∧ t ≤ ((Database.getAllTimeslots st).length : Int) ∧
      (Database.getAllTimeslots st)[(t - 1).toNat]? = some slot ∧
      fac ∈ Database.getAvailableFaculty st slot.1 ∧
      room ∈ Database.getAvailableRooms st slot.1 ∧
      (Admin.assignCourseSchedule st new_id c t f r).2.course_schedule =
        st.course_schedule ++ [⟨new_id, course.1, fac.1, slot.1, room.1⟩]) ∧
      ((∀ (k : Nat) (slot : Int × String), (Database.getAllTimeslots st)[k]? = some slot →
          slot.1 = (k : Int) + 1) ↔
        (Database.getAllTimeslots st).map (fun slot => slot.1) =
          (List.range (Database.getAllTimeslots st).length).map
            (fun (k : Nat) => (k : Int) + 1)) := by
  constructor
  · obtain ⟨course, slot, fac, room, h1, h2, -, hslot, hfac, hroom, heq⟩ :=
      assignCourseSchedule_completed st new_id c t f r h
    exact ⟨slot, course, fac, room, h1, h2, hslot, List.getElem?_mem hfac,
      List.getElem?_mem hroom, by rw [heq]; rfl⟩
  · constructor
    · intro hall
      apply List.ext_getElem?
      intro k
      by_cases hk : k < (Database.getAllTimeslots st).length
      · have hsome : (Database.getAllTimeslots st)[k]? = some ((Database.getAllTimeslots st)[k]) :=
          List.getElem?_eq_getElem hk
        simp only [List.getElem?_map, hsome, Option.map_some', List.getElem?_range hk]
        rw [hall k _ hsome]
      · have hnone : (Database.getAllTimeslots st)[k]? = none :=
          List.getElem?_eq_none (by omega)
        have hnone2 : (List.range (Database.getAllTimeslots st).length)[k]? = none :=
          List.getElem?_eq_none (by simp only [List.length_range]; omega)
        simp only [List.getElem?_map, hnone, hnone2, Option.map_none']
    · intro heq k slot hk
      have hlt : k < (Database.getAllTimeslots st).length :=
        (List.getElem?_eq_some.mp hk).1
      have := congrArg (fun l : List Int => l[k]?) heq
      simp only [List.getElem?_map, hk, Option.map_some', List.getElem?_range hlt] at this
      exact Option.some.inj this

theorem assignCourseSchedule_timeslot_witness :
    (Admin.assignCourseSchedule Scenario.oneSession 3 1 2 1 1).2.course_schedule =
        [⟨1, "CS101", 5, 10, "R1"⟩, ⟨3, "MA101", 5, 11, "R1"⟩] ∧
      ∃ (slot : Int × String) (course : String × String) (fac : Int × String)
          (room : String × String),
        (1 : Int) ≤ 2 ∧ (2 : Int) ≤ ((Database.getAllTimeslots Scenario.oneSession).length : Int) ∧
        (Database.getAllTimeslots Scenario.oneSession)[((2 : Int) - 1).toNat]? = some slot ∧
        fac ∈ Database.getAvailableFaculty Scenario.oneSession slot.1 ∧
        room ∈ Database.getAvailableRooms Scenario.oneSession slot.1 ∧
        (Admin.assignCourseSchedule Scenario.oneSession 3 1 2 1 1).2.course_schedule =
          Scenario.oneSession.course_schedule ++ [⟨3, course.1, fac.1, slot.1, room.1⟩] :=
  ⟨by decide, (assignCourseSchedule_timeslot Scenario.oneSession 3 1 2 1 1 (by decide)).1⟩

/-! ## Course labels -/

theorem findSub_nil (pat : List Char) :
    findSub pat [] = if pat.isEmpty then some 0 else none := rfl

theorem findSub_cons (pat : List Char) (c : Char) (s : List Char) :
    findSub pat (c :: s) =
      if pat.isPrefixOf (c :: s) then some 0 else (findSub pat s).map (fun i => i + 1) := rfl

theorem findSub_eq_none (pat s : List Char) (h : findSub pat s = none) : ¬ pat <:+: s := by
  induction s with
  | nil =>
    rw [findSub_nil] at h
    intro hin
    rw [List.infix_nil] at hin
    subst hin
    simp at h
  | cons c s ih =>
    rw [findSub_cons] at h
    split_ifs at h with hp
    rw [Option.map_eq_none'] at h
    intro hin
    rw [List.infix_cons_iff] at hin
    rcases hin with hin | hin
    · exact hp (List.isPrefixOf_iff_prefix.mpr hin)
    · exact ih h hin

theorem findSub_some (pat s : List Char) (i : Nat) (h : findSub pat s = some i) :
    pat <+: s.drop i := by
  induction s generalizing i with
  | nil =>
    rw [findSub_nil] at h
    split_ifs at h with hp
    have : pat = [] := by simpa using hp
    subst this
    simp
  | cons c s ih =>
    rw [findSub_cons] at h
    split_ifs at h with hp
    · have : i = 0 := by simpa using h.symm
      subst this
      exact List.isPrefixOf_iff_prefix.mp hp
    · rw [Option.map_eq_some'] at h
      obtain ⟨j, hj, rfl⟩ := h
      exact ih j hj

theorem findSub_some_le (pat s : List Char) (i : Nat) (h : findSub pat s = some i) :
    i + pat.length ≤ s.length := by
  have hle := (findSub_some pat s i h).length_le
  rw [List.length_drop] at hle
  induction s generalizing i with
  | nil =>
    rw [findSub_nil] at h
    split_ifs at h
    have : i = 0 := by simpa using h.symm
    subst this
    simpa using hle
  | cons c s ih =>
    rw [findSub_cons] at h
    split_ifs at h with hp
    · have : i = 0 := by simpa using h.symm
      subst this
      simpa using hle
    · rw [Option.map_eq_some'] at h
      obtain ⟨j, hj, rfl⟩ := h
      have hj2 := (findSub_some pat s j hj).length_le
      rw [List.length_drop] at hj2
      have := ih j hj hj2
      simp only [List.length_cons]
      omega

theorem findSub_append_left (pat a b : List Char) (i : Nat) (h : findSub pat a = some i) :
    findSub pat (a ++ b) = some i := by
  induction a generalizing i with
  | nil =>
    rw [findSub_nil] at h
    split_ifs at h with hp
    have hpat : pat = [] := by simpa using hp
    subst hpat
    have : i = 0 := by simpa using h.symm
    subst this
    cases b with
    | nil => rfl
    | cons c s => simp [findSub_cons, List.isPrefixOf]
  | cons x a ih =>
    have hbound := findSub_some_le pat (x :: a) i h
    rw [findSub_cons] at h
    rw [List.cons_append, findSub_cons]
    split_ifs at h with hp
    · have hp2 : pat.isPrefixOf (x :: (a ++ b)) = true := by
        rw [List.isPrefixOf_iff_prefix] at hp ⊢
        exact hp.trans (List.prefix_append (x :: a) b)
      rw [if_pos hp2]
      exact h
    · have hp2 : ¬ pat.isPrefixOf (x :: (a ++ b)) = true := by
        intro hq
        apply hp
        rw [List.isPrefixOf_iff_prefix] at hq ⊢
        have hq2 : pat <+: (x :: a) ++ b := hq
        exact List.prefix_of_prefix_length_le hq2 (List.prefix_append (x :: a) b) (by omega)
      rw [if_neg hp2]
      rw [Option.map_eq_some'] at h ⊢
      obtain ⟨j, hj, rfl⟩ := h
      exact ⟨j, ih j hj, rfl⟩

theorem findSub_append_first (pat a b : List Char)
    (hearly : ∀ j, j < a.length → ¬ pat <+: a.drop j ++ b) (hb : pat <+: b) :
    findSub pat (a ++ b) = some a.length := by
  induction a with
  | nil =>
    cases b with
    | nil =>
      have : pat = [] := by simpa using hb
      subst this
      rfl
    | cons c s =>
      rw [List.nil_append, findSub_cons, if_pos (List.isPrefixOf_iff_prefix.mpr hb)]
      rfl
  | cons x a ih =>
    have h0 : ¬ pat.isPrefixOf (x :: (a ++ b)) = true := by
      intro hq
      exact hearly 0 (by simp) (List.isPrefixOf_iff_prefix.mp hq)
    rw [List.cons_append, findSub_cons, if_neg h0,
      ih (fun j hj => hearly (j + 1) (by simp only [List.length_cons]; omega))]
    rfl

theorem separator_first (code rest : List Char)
    (hno : ¬ [' ', '-', ' '] <:+: code) (hend : ¬ [' ', '-'] <:+ code) :
    ∀ j, j < code.length → ¬ [' ', '-', ' '] <+: code.drop j ++ ([' ', '-', ' '] ++ rest) := by
  intro j hj hpre
  have hsuf : code.drop j <:+ code := List.drop_suffix j code
  have hlen : (code.drop j).length = code.length - j := List.length_drop j code
  match hr : code.drop j, hsuf, hlen with
  | [], _, hlen => simp only [List.length_nil] at hlen; omega
  | [x], _, _ =>
    rw [hr] at hpre
    simp at hpre
  | [x, y], hsuf, _ =>
    rw [hr] at hpre
    simp only [List.cons_append, List.nil_append, List.cons_prefix_cons] at hpre
    obtain ⟨rfl, rfl, -⟩ := hpre
    exact hend hsuf
  | x :: y :: z :: r, hsuf, _ =>
    rw [hr] at hpre
    simp only [List.cons_append, List.cons_prefix_cons] at hpre
    obtain ⟨rfl, rfl, rfl, -⟩ := hpre
    apply hno
    exact (List.IsPrefix.isInfix ⟨r, rfl⟩).trans hsuf.isInfix

/-- C30, as stated, fails: the code `CS -` does not contain ` - `, and the
label `CS - - Intro` built from it splits into the code `CS` and the name
`- Intro`. -/
theorem label_round_trip_counterexample :
    ¬ " - ".toList <:+: "CS -".toList ∧
      labelCode ("CS -" ++ " - " ++ "Intro") = "CS" ∧
      labelCode ("CS -" ++ " - " ++ "Intro") ≠ "CS -" ∧
      labelName ("CS -" ++ " - " ++ "Intro") = some "- Intro" :=
  ⟨findSub_eq_none _ _ (by decide), by decide, by decide, by decide⟩

/-- C30 (amended). Course label round trip: for a course code that does not
contain ` - ` and does not end in ` -`, splitting the label `code - name` with
`substr(0, find(" - "))` and `substr(find(" - ") + 3)` returns exactly the code
and the name; for a code that contains ` - ` the recovered code is a prefix of
the real code that is at least three characters shorter. -/
theorem label_round_trip (code name : String)
    (hlen : (code ++ " - " ++ name).length < 2 ^ 64) :
    (¬ " - ".toList <:+: code.toList → ¬ " -".toList <:+ code.toList →
        labelCode (code ++ " - " ++ name) = code ∧
        labelName (code ++ " - " ++ name) = some name) ∧
      (" - ".toList <:+: code.toList →
        ∃ pre : List Char, labelCode (code ++ " - " ++ name) = String.mk pre ∧
          pre <+: code.toList ∧ pre.length + 3 ≤ code.length) := by
  have hdata : (code ++ " - " ++ name).toList = code.toList ++ ([' ', '-', ' '] ++ name.toList) := by
    simp only [String.toList, String.data_append, List.append_assoc]
  constructor
  · intro hno hend
    have hfind : findSub " - ".toList (code ++ " - " ++ name).toList = some code.toList.length := by
      rw [hdata]
      exact findSub_append_first [' ', '-', ' '] code.toList ([' ', '-', ' '] ++ name.toList)
        (separator_first code.toList name.toList hno hend) (List.prefix_append _ _)
    constructor
    · simp only [labelCode, hfind]
      rw [hdata, List.take_left]
      rfl
    · have hpos : (code.toList.length + 3) % 2 ^ 64 = code.toList.length + 3 := by
        apply Nat.mod_eq_of_lt
        have : (code ++ " - " ++ name).length = code.toList.length + 3 + name.toList.length := by
          simp only [String.length_append]
          rfl
        omega
      have hle : ¬ code.toList.length + 3 > (code ++ " - " ++ name).length := by
        have : (code ++ " - " ++ name).length = code.toList.length + 3 + name.toList.length := by
          simp only [String.length_append]
          rfl
        omega
      simp only [labelName, hfind, hpos, if_neg hle]
      rw [hdata]
      have : List.drop (code.toList.length + 3)
          (code.toList ++ ([' ', '-', ' '] ++ name.toList)) = name.toList := by
        rw [← List.append_assoc]
        exact List.drop_left' (by simp)
      rw [this]
      rfl
  · intro hin
    cases hf : findSub " - ".toList code.toList with
    | none => exact absurd hin (findSub_eq_none _ _ hf)
    | some i =>
      have hbound := findSub_some_le _ _ i hf
      have hfind : findSub " - ".toList (code ++ " - " ++ name).toList = some i := by
        rw [hdata]
        exact findSub_append_left _ _ _ i hf
      refine ⟨code.toList.take i, ?_, List.take_prefix i code.toList, ?_⟩
      · simp only [labelCode, hfind]
        rw [hdata, List.take_append_of_le_length (by
          have : " - ".toList.length = 3 := rfl
          omega)]
      · rw [List.length_take]
        have h3 : " - ".toList.length = 3 := rfl
        have hl : code.length = code.toList.length := rfl
        omega

theorem label_round_trip_witness :
    labelCode ("CS101" ++ " - " ++ "Programming") = "CS101" ∧
      labelName ("CS101" ++ " - " ++ "Programming") = some "Programming" :=
  (label_round_trip "CS101" "Programming" (by decide)).1
    (findSub_eq_none _ _ (by decide)) (by decide)

/-! ## Faculty::addMarks inserts only -/

theorem addEnrollment_eq_read_write (st : Store) (studentId : String) (schedule_id : Int) :
    Database.addEnrollment st studentId schedule_id =
      Database.addEnrollmentWrite st studentId schedule_id
        (Database.addEnrollmentRead st schedule_id) := by
  unfold Database.addEnrollment Database.addEnrollmentRead Database.addEnrollmentWrite
  cases hcs : st.course_schedule.find? (fun cs => cs.schedule_id == schedule_id) with
  | none => rfl
  | some cs =>
    simp only []
    cases hc : st.courses.find? (fun c => c.course_code == cs.course_code) with
    | none => rfl
    | some c => rfl

theorem runInterleaving_alone (st : Store) (studentId : String) (schedule_id : Int) :
    runInterleaving st [⟨studentId, schedule_id, .start⟩] [0, 0] =
      ((Database.addEnrollment st studentId schedule_id).2,
        [⟨studentId, schedule_id, .done (Database.addEnrollment st studentId schedule_id).1⟩]) := by
  rw [addEnrollment_eq_read_write]
  rfl

theorem race_for_last_seat (st : Store) (a b : String) (schedule_id : Int)
    (cs : ScheduleRow) (c : CourseRow)
    (hcs : st.course_schedule.find? (fun x => x.schedule_id == schedule_id) = some cs)
    (hc : st.courses.find? (fun x => x.course_code == cs.course_code) = some c)
    (hlast : Database.enrolledCount st schedule_id + 1 = c.max_students) :
    (runInterleaving st [⟨a, schedule_id, .start⟩, ⟨b, schedule_id, .start⟩] [0, 1, 0, 1]) =
        ({ st with enrollments := st.enrollments ++ [⟨a, schedule_id⟩] ++ [⟨b, schedule_id⟩] },
          [⟨a, schedule_id, .done true⟩, ⟨b, schedule_id, .done true⟩]) ∧
      Database.enrolledCount
        (runInterleaving st [⟨a, schedule_id, .start⟩, ⟨b, schedule_id, .start⟩]
          [0, 1, 0, 1]).1 schedule_id = c.max_students + 1 := by
  have hfree : ¬ Database.enrolledCount st schedule_id ≥ c.max_students := by omega
  have hrun : runInterleaving st [⟨a, schedule_id, .start⟩, ⟨b, schedule_id, .start⟩]
      [0, 1, 0, 1] =
      ({ st with enrollments := st.enrollments ++ [⟨a, schedule_id⟩] ++ [⟨b, schedule_id⟩] },
        [⟨a, schedule_id, .done true⟩, ⟨b, schedule_id, .done true⟩]) := by
    simp [runInterleaving, EnrollClient.step, Database.addEnrollmentRead,
      Database.addEnrollmentWrite, hcs, hc, hfree]
  refine ⟨hrun, ?_⟩
  rw [hrun, ← hlast]
  simp [Database.enrolledCount]
  omega

/-- C26. The count-then-insert sequence of `Database::addEnrollment` is not
atomic: its reads and its insert are separate statements with no transaction
around them. On the store `oneEnrolled`, where session 1 of `CS101`
(`max_students` 2) has one enrollment, the interleaving read of B, read of C,
write of B, write of C returns true to both calls and leaves three enrollments
for session 1, so the capacity bound that held before is broken; the same two
calls one after the other refuse C and keep the bound. -/
theorem enroll_race_exceeds_capacity :
    CapacityBound Scenario.oneEnrolled ∧
      Database.enrolledCount Scenario.oneEnrolled 1 = 1 ∧
      Scenario.oneEnrolled.courses.find? (fun c => c.course_code == "CS101") =
        some ⟨"CS101", "Programming", 3, 1, "BSCS", 2, ""⟩ ∧
      runInterleaving Scenario.oneEnrolled [⟨"B", 1, .start⟩, ⟨"C", 1, .start⟩] [0, 1, 0, 1] =
        (Scenario.withEnrollments [⟨"A", 1⟩, ⟨"B", 1⟩, ⟨"C", 1⟩],
          [⟨"B", 1, .done true⟩, ⟨"C", 1, .done true⟩]) ∧
      Database.enrolledCount
        (runInterleaving Scenario.oneEnrolled [⟨"B", 1, .start⟩, ⟨"C", 1, .start⟩]
          [0, 1, 0, 1]).1 1 = 3 ∧
      ¬ CapacityBound
        (runInterleaving Scenario.oneEnrolled [⟨"B", 1, .start⟩, ⟨"C", 1, .start⟩]
          [0, 1, 0, 1]).1 ∧
      runInterleaving Scenario.oneEnrolled [⟨"B", 1, .start⟩, ⟨"C", 1, .start⟩] [0, 0, 1, 1] =
        (Scenario.withEnrollments [⟨"A", 1⟩, ⟨"B", 1⟩],
          [⟨"B", 1, .done true⟩, ⟨"C", 1, .done false⟩]) := by
  refine ⟨capacityBound_of_rows _ (by decide), by decide, by decide, by decide, by decide,
    ?_, by decide⟩
  intro hbound
  have h := hbound 1 ⟨1, "CS101", 5, 10, "R1"⟩ ⟨"CS101", "Programming", 3, 1, "BSCS", 2, ""⟩
    (by decide) (by decide)
  revert h
  decide

end SCIT
